import Mathlib

/-!
Verification development for the toyfs userspace filesystem (zufs-zus).

The definitions below are a shallow embedding of the C sources:
  * src/toyfs.c       - pool allocator, file engine, directory engine, clone
  * the mkfs utility  - CRC-16 checksummed on-media superblock

Machine integers are modelled as Nat (all the quantities involved are
non-negative at the modelled call sites; loff_t offsets are produced from
uint64 ioctl fields).  Stateful C code is modelled by explicit state
passing; fallible allocation returns the mutated state together with an
Option result, mirroring the C convention of returning NULL after partial
mutation.  Mutexes are elided: the embedding is of the sequential
semantics, which is what the external shim guarantees per inode.
-/

set_option linter.unusedVariables false

/-- PAGE_SIZE of the arena (4096 bytes per page). -/
def PAGE_SIZE : Nat := 4096

/-- TOYFS_ISIZE_MAX from toyfs.c (1 <<< 50). -/
def TOYFS_ISIZE_MAX : Nat := 1 <<< 50

/-- Modelled from the spec: ZUS_API_MAP_MAX_SIZE, the per-call ioctl map cap
(zus_api.h is not among the sources; the spec only says the length is capped
by the ioctl map size).  The exact value does not matter for any claim; the
standard zufs value of 1024 pages is used. -/
def ZUS_API_MAP_MAX_SIZE : Nat := 1024 * PAGE_SIZE

/-- Modelled from the spec: records per carved slab page for dblkrefs.  The
current toyfs_dblkref layout is not in src/ (the toyfs.h in the tree is an
older revision); any positive count works for the claims. -/
def DBLKREFS_PER_PAGE : Nat := 128

/-- Modelled from the spec: records per carved slab page for iblkrefs. -/
def IBLKREFS_PER_PAGE : Nat := 128

/-- Modelled from the spec: records per carved slab page for dirents. -/
def DIRENTS_PER_PAGE : Nat := 13

/-- Modelled from the spec: inode records per carved slab page. -/
def INODES_PER_PAGE : Nat := 16

/-- Errno values used by toyfs (functions return the negated value). -/
def ENOENT : Int := 2
def ENOMEM : Int := 12
def EINVAL : Int := 22
def EFBIG : Int := 27
def ENOSPC : Int := 28
def EISDIR : Int := 21
def ENOTSUP : Int := 95

/-- The page-aligned base offset of an offset (toyfs.c `_off_to_boff`). -/
def _off_to_boff (off : Nat) : Nat := off / PAGE_SIZE * PAGE_SIZE

/-- Offset within its page (toyfs.c `_off_in_page`). -/
def _off_in_page (off : Nat) : Nat := off % PAGE_SIZE

/-- Start of the next page (toyfs.c `_next_page`). -/
def _next_page (off : Nat) : Nat := (off + PAGE_SIZE) / PAGE_SIZE * PAGE_SIZE

/-- toyfs.c `_ispagealigned`: off + len falls on a page boundary. -/
def _ispagealigned (off len : Nat) : Bool := (off + len) % PAGE_SIZE == 0

/-- toyfs.c `_nbytes_in_range`. -/
def _nbytes_in_range (off nxt endOff : Nat) : Nat :=
  if nxt < endOff then nxt - off else endOff - off

/-- toyfs.c `_max_offset`. -/
def _max_offset (off len isize : Nat) : Nat :=
  if off + len > isize then off + len else isize

/-- toyfs.c `_tin_offset`. -/
def _tin_offset (off len isize : Nat) : Nat :=
  if off + len < isize then off + len else isize

/-- toyfs.c `_is_entire_page`. -/
def _is_entire_page (srcOff dstOff : Nat) (len : Nat) : Bool :=
  len == PAGE_SIZE && _off_in_page srcOff == 0 && _off_in_page dstOff == 0

/-- A reference-counted data-block reference (`struct toyfs_dblkref`):
block number of the owned page and reference count. -/
structure Dblkref where
  bn : Nat
  refcnt : Nat
deriving DecidableEq, Repr

/-- A per-file block-map entry (`struct toyfs_iblkref`): page-aligned file
offset together with the id of the dblkref it points at (pointers are
modelled as ids into the dblkref store). -/
structure Iblkref where
  off : Nat
  dbl : Nat
deriving DecidableEq, Repr

/-- The regular-file view of an inode: `zi.i_size`, `zi.i_blocks` and the
sorted `r_iblkrefs` list, which is all the file engine touches. -/
structure RegInode where
  i_size : Nat
  i_blocks : Nat
  blkrefs : List Iblkref
deriving DecidableEq, Repr

/-- Superblock-wide mutable state: the raw page free list, the typed slab
free lists (counts; record identity is unobservable except for dblkrefs,
which live in `dstore` keyed by id), the statvfs block counters that gate
`toyfs_alloc_page`, and the contents of every page (bn and byte offset to
byte value). -/
structure Sbi where
  freePages : List Nat
  f_bfree : Nat
  f_bavail : Nat
  freeDbl : Nat
  freeIbl : Nat
  freeDirents : Nat
  freeInodes : Nat
  nextDbl : Nat
  dstore : List (Nat × Dblkref)
  pages : Nat → Nat → Nat

/-- Look up a dblkref by id; ids handed out by `_consume_dblkref` are always
live at the modelled dereference sites, so a default records a model
artifact only. -/
def dstoreGet (l : List (Nat × Dblkref)) (k : Nat) : Dblkref :=
  match l.find? (fun p => p.1 == k) with
  | some p => p.2
  | none => { bn := 0, refcnt := 0 }

/-- Replace the dblkref stored under an id. -/
def dstoreSet (l : List (Nat × Dblkref)) (k : Nat) (d : Dblkref) :
    List (Nat × Dblkref) :=
  l.map (fun p => if p.1 == k then (p.1, d) else p)

/-- Remove a dblkref id from the store. -/
def dstoreRemove (l : List (Nat × Dblkref)) (k : Nat) : List (Nat × Dblkref) :=
  l.filter (fun p => p.1 != k)

/-- Bump the refcount of a dblkref (`dblkref->refcnt++`). -/
def dstoreIncref (l : List (Nat × Dblkref)) (k : Nat) : List (Nat × Dblkref) :=
  l.map (fun p => if p.1 == k then (p.1, { p.2 with refcnt := p.2.refcnt + 1 }) else p)

/-- Drop the refcount of a dblkref by one (`dblkref->refcnt--`). -/
def dstoreDecref (l : List (Nat × Dblkref)) (k : Nat) : List (Nat × Dblkref) :=
  l.map (fun p => if p.1 == k then (p.1, { p.2 with refcnt := p.2.refcnt - 1 }) else p)

/-- Zero one page of the arena (the memset in `toyfs_alloc_page`). -/
def zeroPage (pages : Nat → Nat → Nat) (bn : Nat) : Nat → Nat → Nat :=
  fun b o => if b = bn then 0 else pages b o

/-- toyfs.c `_copy_in`: copy `len` bytes of `src` into page `bn` starting at
in-page offset `inoff`. -/
def _copy_in (pages : Nat → Nat → Nat) (bn inoff len : Nat) (src : Nat → Nat) :
    Nat → Nat → Nat :=
  fun b o => if b = bn ∧ inoff ≤ o ∧ o < inoff + len then src (o - inoff) else pages b o

/-- toyfs.c `_copy_page`: copy the whole page at `srcBn` over the page at
`dstBn`. -/
def _copy_page (pages : Nat → Nat → Nat) (dstBn srcBn : Nat) : Nat → Nat → Nat :=
  fun b o => if b = dstBn then pages srcBn o else pages b o

/-- toyfs.c `_assign_zeros`: zero `len` bytes of page `bn` from `inoff`. -/
def _assign_zeros (pages : Nat → Nat → Nat) (bn inoff len : Nat) : Nat → Nat → Nat :=
  fun b o => if b = bn ∧ inoff ≤ o ∧ o < inoff + len then 0 else pages b o

/-- toyfs.c `toyfs_alloc_page`: gated by the statvfs counters, pops the raw
free list, zeroes the page; returns the state unchanged and none on
exhaustion. -/
def toyfs_alloc_page (sbi : Sbi) : Sbi × Option Nat :=
  if sbi.f_bfree = 0 ∨ sbi.f_bavail = 0 then (sbi, none)
  else
    match sbi.freePages with
    | [] => (sbi, none)
    | bn :: rest =>
        ({ sbi with freePages := rest, f_bfree := sbi.f_bfree - 1,
                    f_bavail := sbi.f_bavail - 1,
                    pages := zeroPage sbi.pages bn }, some bn)

/-- toyfs.c `toyfs_free_page`: pushes the page back and restores the
counters. -/
def toyfs_free_page (sbi : Sbi) (bn : Nat) : Sbi :=
  { sbi with freePages := bn :: sbi.freePages, f_bfree := sbi.f_bfree + 1,
             f_bavail := sbi.f_bavail + 1 }

/-- toyfs.c `_consume_dblkref` backed by `_pool_pop_dblkref`: pop a free
dblkref record, lazily carving one raw page into `DBLKREFS_PER_PAGE` records
when the typed list is empty (the carve bypasses the statvfs counters, as in
the source).  A consumed record is initialised with `refcnt = 0, bn = 0`. -/
def _consume_dblkref (sbi : Sbi) : Sbi × Option Nat :=
  if sbi.freeDbl > 0 then
    ({ sbi with freeDbl := sbi.freeDbl - 1, nextDbl := sbi.nextDbl + 1,
                dstore := (sbi.nextDbl, { bn := 0, refcnt := 0 }) :: sbi.dstore },
     some sbi.nextDbl)
  else
    match sbi.freePages with
    | [] => (sbi, none)
    | _ :: rest =>
        ({ sbi with freePages := rest, freeDbl := DBLKREFS_PER_PAGE - 1,
                    nextDbl := sbi.nextDbl + 1,
                    dstore := (sbi.nextDbl, { bn := 0, refcnt := 0 }) :: sbi.dstore },
         some sbi.nextDbl)

/-- toyfs.c `_release_dblkref`: the record returns to the typed free list
(slab records never feed back to the raw page list). -/
def _release_dblkref (sbi : Sbi) (k : Nat) : Sbi :=
  { sbi with dstore := dstoreRemove sbi.dstore k, freeDbl := sbi.freeDbl + 1 }

/-- toyfs.c `_consume_iblkref` backed by `_pool_pop_iblkref`; only the
success of the pop is observable, so the typed list is a count. -/
def _consume_iblkref (sbi : Sbi) : Sbi × Bool :=
  if sbi.freeIbl > 0 then ({ sbi with freeIbl := sbi.freeIbl - 1 }, true)
  else
    match sbi.freePages with
    | [] => (sbi, false)
    | _ :: rest =>
        ({ sbi with freePages := rest, freeIbl := IBLKREFS_PER_PAGE - 1 }, true)

/-- toyfs.c `_release_iblkref`. -/
def _release_iblkref (sbi : Sbi) : Sbi :=
  { sbi with freeIbl := sbi.freeIbl + 1 }

/-- toyfs.c `toyfs_alloc_dirent` backed by `_pool_pop_dirent`. -/
def toyfs_alloc_dirent (sbi : Sbi) : Sbi × Bool :=
  if sbi.freeDirents > 0 then ({ sbi with freeDirents := sbi.freeDirents - 1 }, true)
  else
    match sbi.freePages with
    | [] => (sbi, false)
    | _ :: rest =>
        ({ sbi with freePages := rest, freeDirents := DIRENTS_PER_PAGE - 1 }, true)

/-- toyfs.c `_pool_pop_inode`: pop an inode record, carving when needed. -/
def _pool_pop_inode (sbi : Sbi) : Sbi × Bool :=
  if sbi.freeInodes > 0 then ({ sbi with freeInodes := sbi.freeInodes - 1 }, true)
  else
    match sbi.freePages with
    | [] => (sbi, false)
    | _ :: rest =>
        ({ sbi with freePages := rest, freeInodes := INODES_PER_PAGE - 1 }, true)

/-- toyfs.c `_pool_push_inode`. -/
def _pool_push_inode (sbi : Sbi) : Sbi :=
  { sbi with freeInodes := sbi.freeInodes + 1 }

/-- toyfs.c `_new_dblkref`: a fresh page plus a consumed record with
`bn := page, refcnt := 1`; if the record pop fails the page goes back. -/
def _new_dblkref (sbi : Sbi) : Sbi × Option Nat :=
  match toyfs_alloc_page sbi with
  | (sbi1, none) => (sbi1, none)
  | (sbi1, some bn) =>
      match _consume_dblkref sbi1 with
      | (sbi2, none) => (toyfs_free_page sbi2 bn, none)
      | (sbi2, some k) =>
          ({ sbi2 with dstore := dstoreSet sbi2.dstore k { bn := bn, refcnt := 1 } },
           some k)

/-- toyfs.c `_free_dblkref`: releases the record and frees its page. -/
def _free_dblkref (sbi : Sbi) (k : Nat) : Sbi :=
  let bn := (dstoreGet sbi.dstore k).bn
  toyfs_free_page (_release_dblkref sbi k) bn

/-- toyfs.c `_decref_dblkref`: drop the refcount; free record and page at
zero. -/
def _decref_dblkref (sbi : Sbi) (k : Nat) : Sbi :=
  let d := dstoreGet sbi.dstore k
  if d.refcnt - 1 = 0 then _free_dblkref { sbi with dstore := dstoreDecref sbi.dstore k } k
  else { sbi with dstore := dstoreDecref sbi.dstore k }

/-- The inner walk of toyfs.c `_fetch_iblkref`: scan the whole list for an
entry whose offset equals the page base offset. -/
def _fetch_iblkref_at : List Iblkref → Nat → Option Iblkref
  | [], _ => none
  | ib :: rest, boff => if ib.off = boff then some ib else _fetch_iblkref_at rest boff

/-- toyfs.c `_fetch_iblkref`. -/
def _fetch_iblkref (reg : RegInode) (off : Nat) : Option Iblkref :=
  _fetch_iblkref_at reg.blkrefs (_off_to_boff off)

/-- The search walk of toyfs.c `_require_iblkref`: stop at the entry with the
sought offset, or report absence at the first entry past it (the list is kept
sorted ascending). -/
def _find_iblkref : List Iblkref → Nat → Option Iblkref
  | [], _ => none
  | ib :: rest, boff =>
      if ib.off = boff then some ib
      else if boff < ib.off then none
      else _find_iblkref rest boff

/-- The `list_add_before(&iblkref->head, itr)` insertion of
`_require_iblkref`: place the new entry before the first entry with a larger
offset (append when none). -/
def _insert_iblkref : List Iblkref → Iblkref → List Iblkref
  | [], nib => [nib]
  | ib :: rest, nib =>
      if nib.off < ib.off then nib :: ib :: rest else ib :: _insert_iblkref rest nib

/-- The in-place `iblkref->dblkref = dblkref` of the copy-on-write branch:
repoint the entry at `boff` (the first match, as in the list walk). -/
def _set_dbl : List Iblkref → Nat → Nat → List Iblkref
  | [], _, _ => []
  | ib :: rest, boff, k =>
      if ib.off = boff then { ib with dbl := k } :: rest else ib :: _set_dbl rest boff k

/-- toyfs.c `_new_iblkref`: fresh dblkref (page + record), then an iblkref
record; on iblkref failure the dblkref is dropped again.  `zi->i_blocks` is
bumped on success.  The returned entry is not yet linked into the list. -/
def _new_iblkref (sbi : Sbi) (reg : RegInode) (off : Nat) :
    Sbi × RegInode × Option Iblkref :=
  match _new_dblkref sbi with
  | (sbi1, none) => (sbi1, reg, none)
  | (sbi1, some k) =>
      match _consume_iblkref sbi1 with
      | (sbi2, false) => (_decref_dblkref sbi2 k, reg, none)
      | (sbi2, true) =>
          (sbi2, { reg with i_blocks := reg.i_blocks + 1 }, some { off := off, dbl := k })

/-- toyfs.c `_clone_data`: copy the backing page of `srcDbl` over the backing
page of `dstDbl`. -/
def _clone_data (sbi : Sbi) (dstDbl srcDbl : Nat) : Sbi :=
  { sbi with pages := _copy_page sbi.pages (dstoreGet sbi.dstore dstDbl).bn
                        (dstoreGet sbi.dstore srcDbl).bn }

/-- toyfs.c `_require_iblkref`: find the entry at the page base offset of
`off`, inserting a fresh one (new page, refcnt 1) when absent, and cloning to
a private dblkref when the present one is shared (refcnt above 1).  Note the
source does not decrement the refcount of the old shared dblkref in the
copy-on-write branch.  On allocation failure the state mutated so far is
kept and no entry is returned, as in the C (which returns NULL). -/
def _require_iblkref (sbi : Sbi) (reg : RegInode) (off : Nat) :
    Sbi × RegInode × Option Iblkref :=
  let boff := _off_to_boff off
  match _find_iblkref reg.blkrefs boff with
  | some ib =>
      if (dstoreGet sbi.dstore ib.dbl).refcnt > 1 then
        match _new_dblkref sbi with
        | (sbi1, none) => (sbi1, reg, none)
        | (sbi1, some k) =>
            let sbi2 := _clone_data sbi1 k ib.dbl
            (sbi2, { reg with blkrefs := _set_dbl reg.blkrefs boff k },
             some { off := boff, dbl := k })
      else (sbi, reg, some ib)
  | none =>
      match _new_iblkref sbi reg boff with
      | (sbi1, reg1, none) => (sbi1, reg1, none)
      | (sbi1, reg1, some ib) =>
          (sbi1, { reg1 with blkrefs := _insert_iblkref reg1.blkrefs ib }, some ib)

/-- toyfs.c `_check_io` (named `_check_io_range` here): zero length and
out-of-bound offsets are rejected.  Offsets are Nat, so the `off < 0` branch
of the source is vacuous and not represented. -/
def _check_io_range (off len : Nat) : Int :=
  if len = 0 then -EINVAL
  else if off > TOYFS_ISIZE_MAX then -EFBIG
  else if off + len > TOYFS_ISIZE_MAX then -EFBIG
  else 0

/-- toyfs.c `_check_rw`. -/
def _check_rw (off len : Nat) : Int :=
  if len > ZUS_API_MAP_MAX_SIZE then -EINVAL else _check_io_range off len

theorem next_page_gt (off : Nat) : off < _next_page off := by
  unfold _next_page PAGE_SIZE
  have hd := Nat.div_add_mod (off + 4096) 4096
  have hm : (off + 4096) % 4096 < 4096 := Nat.mod_lt _ (by norm_num)
  omega

/-- The page walk of toyfs.c `toyfs_write`: require a block for each page,
copy the intersection of the request with the page, advance.  Returns the
mutated state, the byte count written, the last fetched page (the `page`
local of the source) and whether the walk completed without an allocation
failure (the source returns -ENOSPC from inside the loop).  `fuel` bounds
the iteration count so the recursion is structural; the loop advances `off`
by at least one byte per iteration, so any fuel of at least
`endOff - off` makes the fuel-exhaustion branch unreachable (callers pass
exactly that). -/
def _write_walk (fuel : Nat) (sbi : Sbi) (reg : RegInode) (buf : Nat → Nat)
    (bufpos off endOff cnt : Nat) (lastBn : Option Nat) :
    Sbi × RegInode × Nat × Option Nat × Bool :=
  match fuel with
  | 0 => (sbi, reg, cnt, lastBn, true)
  | fuel + 1 =>
      if off < endOff then
        match _require_iblkref sbi reg off with
        | (sbi1, reg1, none) => (sbi1, reg1, cnt, lastBn, false)
        | (sbi1, reg1, some ib) =>
            let bn := (dstoreGet sbi1.dstore ib.dbl).bn
            let nxt := _next_page off
            let len := _nbytes_in_range off nxt endOff
            let sbi2 := { sbi1 with
              pages := _copy_in sbi1.pages bn (_off_in_page off) len
                         (fun i => buf (bufpos + i)) }
            _write_walk fuel sbi2 reg1 buf (bufpos + len) nxt endOff (cnt + len) (some bn)
      else (sbi, reg, cnt, lastBn, true)

/-- toyfs.c `toyfs_write`: bounds check, page walk, and only on a complete
walk the `i_size = max(i_size, offset + count)` update; a walk stopped by an
allocation failure returns -ENOSPC with the state as mutated so far and the
size not updated. -/
def toyfs_write (sbi : Sbi) (reg : RegInode) (buf : Nat → Nat) (off len : Nat) :
    Sbi × RegInode × Int :=
  let err := _check_rw off len
  if err ≠ 0 then (sbi, reg, err)
  else
    match _write_walk len sbi reg buf 0 off (off + len) 0 none with
    | (sbi1, reg1, cnt, lastBn, ok) =>
        if ok then
          (sbi1, { reg1 with i_size := _max_offset off cnt reg1.i_size },
           if lastBn.isSome then 0 else -ENOSPC)
        else (sbi1, reg1, -ENOSPC)

/-- The scan of toyfs.c `_seek_block`: walk page offsets from `off` up to the
file size and stop at the first page whose backing-block presence matches
`seekExist`; none when the scan runs off the end (the source leaves the
output at -1).  `fuel` bounds the iterations as in `_write_walk`. -/
def _seek_block_walk (fuel : Nat) (reg : RegInode) (off endOff : Nat)
    (seekExist : Bool) : Option Nat :=
  match fuel with
  | 0 => none
  | fuel + 1 =>
      if off < endOff then
        if (_fetch_iblkref reg off).isSome = seekExist then some off
        else _seek_block_walk fuel reg (_next_page off) endOff seekExist
      else none

/-- toyfs.c `_seek_block`. -/
def _seek_block (reg : RegInode) (from_ : Nat) (seekExist : Bool) : Option Nat :=
  _seek_block_walk (reg.i_size - from_) reg from_ reg.i_size seekExist

/-- toyfs.c `_seek_data`. -/
def _seek_data (reg : RegInode) (from_ : Nat) : Option Nat :=
  _seek_block reg from_ true

/-- toyfs.c `_seek_hole`. -/
def _seek_hole (reg : RegInode) (from_ : Nat) : Option Nat :=
  _seek_block reg from_ false

/-- The whence values of `toyfs_seek`. -/
inductive Whence where
  | seekData
  | seekHole
  | other
deriving DecidableEq, Repr

/-- toyfs.c `toyfs_seek`: returns (err, offset_out); the output offset stays
at its -1 initialisation when nothing is found or the whence is
unsupported. -/
def toyfs_seek (reg : RegInode) (offIn : Nat) (whence : Whence) : Int × Int :=
  match whence with
  | .seekData =>
      match _seek_data reg offIn with
      | some o => (0, (o : Int))
      | none => (0, -1)
  | .seekHole =>
      match _seek_hole reg offIn with
      | some o => (0, (o : Int))
      | none => (0, -1)
  | .other => (-ENOTSUP, -1)

/-- toyfs.c `_free_iblkref`: drop the dblkref reference, release the iblkref
record (the `i_blocks` decrement is accounted by the caller walk). -/
def _free_iblkref (sbi : Sbi) (ib : Iblkref) : Sbi :=
  _release_iblkref (_decref_dblkref sbi ib.dbl)

/-- The deletion walk of toyfs.c `_drop_range`: drop (unlink plus
`_free_iblkref`) every entry at or past `pos`, keeping the rest; the third
component is the resulting `i_blocks`. -/
def _drop_walk (sbi : Sbi) (l : List Iblkref) (pos blocks : Nat) :
    Sbi × List Iblkref × Nat :=
  match l with
  | [] => (sbi, [], blocks)
  | ib :: rest =>
      if pos ≤ ib.off then
        let sbi1 := _free_iblkref sbi ib
        _drop_walk sbi1 rest pos (blocks - 1)
      else
        match _drop_walk sbi rest pos blocks with
        | (sbi1, rest1, b1) => (sbi1, ib :: rest1, b1)

/-- toyfs.c `_drop_range`: round `pos` up to a page boundary, then drop every
block-map entry at or beyond it. -/
def _drop_range (sbi : Sbi) (reg : RegInode) (pos : Nat) : Sbi × RegInode :=
  let pos1 := if pos % PAGE_SIZE ≠ 0 then _next_page pos else pos
  match _drop_walk sbi reg.blkrefs pos1 reg.i_blocks with
  | (sbi1, l1, b1) => (sbi1, { reg with blkrefs := l1, i_blocks := b1 })

/-- The inode kinds distinguished by the source (`i_mode` collapsed). -/
inductive IKind where
  | dir
  | reg
  | lnk
  | fifo
  | other
deriving DecidableEq, Repr

/-- toyfs.c `toyfs_truncate` on the regular-file view (the kind dispatch is
passed explicitly). -/
def toyfs_truncate (sbi : Sbi) (kind : IKind) (reg : RegInode) (size : Nat) :
    Sbi × RegInode × Int :=
  if kind = .dir then (sbi, reg, -EISDIR)
  else if kind ≠ .reg then (sbi, reg, -EINVAL)
  else if size < reg.i_size then
    match _drop_range sbi reg size with
    | (sbi1, reg1) => (sbi1, { reg1 with i_size := size }, 0)
  else (sbi, { reg with i_size := size }, 0)

/-- The append walk of toyfs.c `_clone_entire_file_range`: for each source
entry, consume a destination iblkref record, point it at the source dblkref,
bump that refcount and append at the tail; an allocation failure returns
-ENOSPC with the entries appended so far kept. -/
def _clone_entire_walk (sbi : Sbi) (src : List Iblkref) (dst : RegInode) :
    Sbi × RegInode × Int :=
  match src with
  | [] => (sbi, dst, 0)
  | s :: rest =>
      match _consume_iblkref sbi with
      | (sbi1, false) => (sbi1, dst, -ENOSPC)
      | (sbi1, true) =>
          let sbi2 := { sbi1 with dstore := dstoreIncref sbi1.dstore s.dbl }
          let dst1 := { dst with
            blkrefs := dst.blkrefs ++ [{ off := s.off, dbl := s.dbl }],
            i_blocks := dst.i_blocks + 1 }
          _clone_entire_walk sbi2 rest dst1

/-- toyfs.c `_clone_entire_file_range`: drop every destination entry, then
share every source entry in order; only a complete walk copies `i_size` from
source to destination. -/
def _clone_entire_file_range (sbi : Sbi) (src dst : RegInode) :
    Sbi × RegInode × Int :=
  match _drop_range sbi dst 0 with
  | (sbi1, dst1) =>
      match _clone_entire_walk sbi1 src.blkrefs dst1 with
      | (sbi2, dst2, e) =>
          if e = 0 then (sbi2, { dst2 with i_size := src.i_size }, 0)
          else (sbi2, dst2, e)

/-- toyfs.c `_unique_page`: when the dblkref of the entry is shared, take a bare
dblkref record via `_consume_dblkref` (which initialises it with `bn = 0,
refcnt = 0` and allocates no page), copy the shared page over the page at
that `bn` (block 0), decrement the old refcount and repoint the entry.
Returns the page `bn` to operate on, or none when the record pop fails. -/
def _unique_page (sbi : Sbi) (ib : Iblkref) : Sbi × Iblkref × Option Nat :=
  let d := dstoreGet sbi.dstore ib.dbl
  if d.refcnt > 1 then
    match _consume_dblkref sbi with
    | (sbi1, none) => (sbi1, ib, none)
    | (sbi1, some k) =>
        let newBn := (dstoreGet sbi1.dstore k).bn
        let sbi2 := { sbi1 with pages := _copy_page sbi1.pages newBn d.bn }
        let sbi3 := { sbi2 with dstore := dstoreDecref sbi2.dstore ib.dbl }
        (sbi3, { ib with dbl := k }, some newBn)
  else (sbi, ib, some d.bn)

/-- toyfs.c `_share_page`: release the dblkref the destination entry holds (free the
record and its page at refcount zero), then point the entry at the source
dblkref and bump its refcount.  The `if (dblkref)` null guard of the source
is not represented: every entry produced by `_require_iblkref` carries a
dblkref. -/
def _share_page (sbi : Sbi) (srcIb dstIb : Iblkref) : Sbi × Iblkref :=
  let d := dstoreGet sbi.dstore dstIb.dbl
  let sbi1 :=
    if d.refcnt - 1 = 0 then
      _free_dblkref { sbi with dstore := dstoreDecref sbi.dstore dstIb.dbl } dstIb.dbl
    else { sbi with dstore := dstoreDecref sbi.dstore dstIb.dbl }
  ({ sbi1 with dstore := dstoreIncref sbi1.dstore srcIb.dbl },
   { dstIb with dbl := srcIb.dbl })

/-- toyfs.c `_clone_range` (one entire page): share the source block into the
destination when the source has one; otherwise zero the destination block in
place after making it unique, skipping holes over holes entirely (that early
return also skips the `i_size` update).  The `toyfs_assert(_is_entire_page)`
of the source is modelled as an -EINVAL return; every call site in scope
satisfies the guard. -/
def _clone_range (sbi : Sbi) (src dst : RegInode) (srcOff dstOff len : Nat) :
    Sbi × RegInode × Int :=
  if ¬ _is_entire_page srcOff dstOff len then (sbi, dst, -EINVAL)
  else
    let sizeUpd := fun (r : RegInode) =>
      if dstOff + len > r.i_size then { r with i_size := dstOff + len } else r
    match _fetch_iblkref src srcOff with
    | some srcIb =>
        match _require_iblkref sbi dst dstOff with
        | (sbi1, dst1, none) => (sbi1, dst1, -ENOSPC)
        | (sbi1, dst1, some dstIb) =>
            match _share_page sbi1 srcIb dstIb with
            | (sbi2, dstIb1) =>
                let dst2 := { dst1 with
                  blkrefs := _set_dbl dst1.blkrefs (_off_to_boff dstOff) dstIb1.dbl }
                (sbi2, sizeUpd dst2, 0)
    | none =>
        match _fetch_iblkref dst dstOff with
        | none => (sbi, dst, 0)
        | some dstIb =>
            match _unique_page sbi dstIb with
            | (sbi1, _, none) => (sbi1, dst, -ENOSPC)
            | (sbi1, dstIb1, some pg) =>
                let dst1 := { dst with
                  blkrefs := _set_dbl dst.blkrefs (_off_to_boff dstOff) dstIb1.dbl }
                let sbi2 := { sbi1 with
                  pages := _assign_zeros sbi1.pages pg (_off_in_page dstOff) len }
                (sbi2, sizeUpd dst1, 0)

/-- The page-by-page walk of toyfs.c `_clone_sub_file_range` over both
ranges; `fuel` bounds the iterations as in `_write_walk` (each iteration
advances both offsets by at least one byte). -/
def _clone_sub_walk (fuel : Nat) (sbi : Sbi) (src dst : RegInode)
    (srcOff srcEnd dstOff dstEnd : Nat) : Sbi × RegInode × Int :=
  match fuel with
  | 0 => (sbi, dst, 0)
  | fuel + 1 =>
      if srcOff < srcEnd ∧ dstOff < dstEnd then
        let srcLen := _nbytes_in_range srcOff (_next_page srcOff) srcEnd
        let dstLen := _nbytes_in_range dstOff (_next_page dstOff) dstEnd
        let len := if srcLen < dstLen then srcLen else dstLen
        match _clone_range sbi src dst srcOff dstOff len with
        | (sbi1, dst1, e) =>
            if e ≠ 0 then (sbi1, dst1, e)
            else _clone_sub_walk fuel sbi1 src dst1 (srcOff + len) srcEnd
                   (dstOff + len) dstEnd
      else (sbi, dst, 0)

/-- toyfs.c `_clone_sub_file_range`. -/
def _clone_sub_file_range (sbi : Sbi) (src dst : RegInode)
    (srcPos dstPos nbytes : Nat) : Sbi × RegInode × Int :=
  _clone_sub_walk nbytes sbi src dst srcPos (srcPos + nbytes) dstPos
    (dstPos + nbytes)

/-- An inode as the clone dispatch sees it: its kind and its regular-file
view. -/
structure Inode where
  kind : IKind
  reg : RegInode
deriving DecidableEq, Repr

/-- The whole filesystem state: superblock state plus the inode table
restricted to what the modelled operations read (ino to inode). -/
structure Fs where
  sbi : Sbi
  inodes : List (Nat × Inode)

/-- Inode-table lookup by ino. -/
def fsGetInode (fs : Fs) (ino : Nat) : Option Inode :=
  match fs.inodes.find? (fun p => p.1 == ino) with
  | some p => some p.2
  | none => none

/-- Replace an inode under its ino. -/
def fsSetInode (fs : Fs) (ino : Nat) (i : Inode) : Fs :=
  { fs with inodes := fs.inodes.map (fun p => if p.1 == ino then (p.1, i) else p) }

/-- toyfs.c `toyfs_clone`: both inodes must be regular (-ENOTSUP), cloning an
inode onto itself is a no-op, all-zero arguments select the entire-file
clone, and any misalignment of the offsets or length is rejected with
-ENOTSUP before the sub-range walk. -/
def toyfs_clone (fs : Fs) (srcIno dstIno posIn posOut len : Nat) : Fs × Int :=
  match fsGetInode fs srcIno, fsGetInode fs dstIno with
  | some src, some dst =>
      if ¬ (src.kind = .reg ∧ dst.kind = .reg) then (fs, -ENOTSUP)
      else if srcIno = dstIno then (fs, 0)
      else if posIn = 0 ∧ len = 0 ∧ posOut = 0 then
        match _clone_entire_file_range fs.sbi src.reg dst.reg with
        | (sbi1, dstReg1, e) =>
            (fsSetInode { fs with sbi := sbi1 } dstIno { dst with reg := dstReg1 }, e)
      else if ¬ (_ispagealigned posIn 0 && _ispagealigned posIn len &&
                 _ispagealigned posOut 0 && _ispagealigned posOut len) then
        (fs, -ENOTSUP)
      else
        match _clone_sub_file_range fs.sbi src.reg dst.reg posIn posOut len with
        | (sbi1, dstReg1, e) =>
            (fsSetInode { fs with sbi := sbi1 } dstIno { dst with reg := dstReg1 }, e)
  | _, _ => (fs, -ENOENT)

/-- `toyfs_write` lifted to the filesystem level (the shim passes the inode
of the ino it resolved). -/
def fsWrite (fs : Fs) (ino : Nat) (buf : Nat → Nat) (off len : Nat) : Fs × Int :=
  match fsGetInode fs ino with
  | none => (fs, -ENOENT)
  | some i =>
      match toyfs_write fs.sbi i.reg buf off len with
      | (sbi1, reg1, e) =>
          (fsSetInode { fs with sbi := sbi1 } ino { i with reg := reg1 }, e)

/-- Number of live iblkrefs across all inodes whose dblkref pointer equals
the given id. -/
def iblkrefCountTo (fs : Fs) (k : Nat) : Nat :=
  (fs.inodes.map (fun p => (p.2.reg.blkrefs.filter (fun ib => ib.dbl == k)).length)).sum

/-- The refcount invariant of the spec: every live dblkref counts exactly
the live iblkrefs that point at it. -/
def refcntInvariant (fs : Fs) : Bool :=
  fs.sbi.dstore.all (fun p => p.2.refcnt == iblkrefCountTo fs p.1)

/-- A directory entry (`struct toyfs_dirent`): offset cookie, child ino,
d_type and name. -/
structure Dirent where
  d_off : Nat
  d_ino : Nat
  d_type : Nat
  d_name : String
deriving DecidableEq, Repr

/-- The directory view of an inode: its ino and parent ino (emitted for "."
and ".."), `zi.i_size`, the ordered child list, the child count and the
`d_off_max` cookie counter. -/
structure DirInode where
  i_ino : Nat
  i_parent_ino : Nat
  i_size : Nat
  d_childs : List Dirent
  d_ndentry : Nat
  d_off_max : Nat
deriving DecidableEq, Repr

/-- DT_DIR, the d_type emitted for "." and "..". -/
def DT_DIR : Nat := 4

/-- toyfs.c `toyfs_next_doff`: atomically fetch-and-add `d_off_max`, and hand
out the previous value times PAGE_SIZE (modelled sequentially). -/
def toyfs_next_doff (dir : DirInode) : DirInode × Nat :=
  ({ dir with d_off_max := dir.d_off_max + 1 }, dir.d_off_max * PAGE_SIZE)

/-- toyfs.c `_toyfs_add_dentry`: allocate a dirent record (-ENOSPC on
exhaustion), take the next directory offset, fill the dirent, append it at
the tail of the child list, bump the child count and set
`i_size = doff + PAGE_SIZE + 2`.  The trailing `zus_std_add_dentry` (link
counts and timestamps) lives in the external zus core, outside src/. -/
def _toyfs_add_dentry (sbi : Sbi) (dir : DirInode) (childIno childType : Nat)
    (name : String) : Sbi × DirInode × Int :=
  match toyfs_alloc_dirent sbi with
  | (sbi1, false) => (sbi1, dir, -ENOSPC)
  | (sbi1, true) =>
      match toyfs_next_doff dir with
      | (dir1, doff) =>
          let de : Dirent :=
            { d_off := doff, d_ino := childIno, d_type := childType, d_name := name }
          (sbi1,
           { dir1 with
             d_childs := dir1.d_childs ++ [de],
             d_ndentry := dir1.d_ndentry + 1,
             i_size := doff + PAGE_SIZE + 2 }, 0)

/-- The dirent-list loop of toyfs.c `_iterate_dir`, parameterised over the
caller-supplied emit (its state type and the actor, fed name, position, ino
and d_type).  Components: emitter state, cursor, the `ok` local, and the
`itr != childs` value computed at loop exit.  The loop advances `itr` before
emitting, emits entries whose `d_off` is at or past the cursor, and sets the
cursor to `d_off + 1` after every emit, accepted or not. -/
def _iterate_childs {σ : Type} (emit : σ → String → Nat → Nat → Nat → σ × Bool)
    (s : σ) (pos : Nat) (ok : Bool) : List Dirent → σ × Nat × Bool × Bool
  | [] => (s, pos, ok, false)
  | d :: rest =>
      if ok then
        if pos ≤ d.d_off then
          match emit s d.d_name d.d_off d.d_ino d.d_type with
          | (s1, e) => _iterate_childs emit s1 (d.d_off + 1) e rest
        else _iterate_childs emit s pos ok rest
      else (s, pos, ok, true)

/-- toyfs.c `_iterate_dir`: cursor 0 emits ".", cursor 1 emits "..", then the
child list is walked; the returned Bool is the `itr != childs` result. -/
def _iterate_dir {σ : Type} (emit : σ → String → Nat → Nat → Nat → σ × Bool)
    (dir : DirInode) (s0 : σ) (pos0 : Nat) : σ × Nat × Bool :=
  let st1 :=
    if pos0 = 0 then
      match emit s0 "." 0 dir.i_ino DT_DIR with
      | (s, e) => (s, 1, e)
    else (s0, pos0, true)
  let st2 :=
    if st1.2.1 = 1 ∧ st1.2.2 = true then
      match emit st1.1 ".." 1 dir.i_parent_ino DT_DIR with
      | (s, e) => (s, 2, e)
    else st1
  match _iterate_childs emit st2.1 st2.2.1 st2.2.2 dir.d_childs with
  | (s, pos, _, more) => (s, pos, more)

/-- toyfs.c `toyfs_iterate_dir`: runs `_iterate_dir` and hands back the new
cursor and the `more` flag. -/
def toyfs_iterate_dir {σ : Type} (emit : σ → String → Nat → Nat → Nat → σ × Bool)
    (dir : DirInode) (s0 : σ) (pos0 : Nat) : σ × Nat × Bool :=
  _iterate_dir emit dir s0 pos0

/-- The CRC-16 lookup table of the mkfs utility, verbatim. -/
def crc16_table : List Nat :=
  [0x0000, 0xC0C1, 0xC181, 0x0140, 0xC301, 0x03C0, 0x0280, 0xC241,
   0xC601, 0x06C0, 0x0780, 0xC741, 0x0500, 0xC5C1, 0xC481, 0x0440,
   0xCC01, 0x0CC0, 0x0D80, 0xCD41, 0x0F00, 0xCFC1, 0xCE81, 0x0E40,
   0x0A00, 0xCAC1, 0xCB81, 0x0B40, 0xC901, 0x09C0, 0x0880, 0xC841,
   0xD801, 0x18C0, 0x1980, 0xD941, 0x1B00, 0xDBC1, 0xDA81, 0x1A40,
   0x1E00, 0xDEC1, 0xDF81, 0x1F40, 0xDD01, 0x1DC0, 0x1C80, 0xDC41,
   0x1400, 0xD4C1, 0xD581, 0x1540, 0xD701, 0x17C0, 0x1680, 0xD641,
   0xD201, 0x12C0, 0x1380, 0xD341, 0x1100, 0xD1C1, 0xD081, 0x1040,
   0xF001, 0x30C0, 0x3180, 0xF141, 0x3300, 0xF3C1, 0xF281, 0x3240,
   0x3600, 0xF6C1, 0xF781, 0x3740, 0xF501, 0x35C0, 0x3480, 0xF441,
   0x3C00, 0xFCC1, 0xFD81, 0x3D40, 0xFF01, 0x3FC0, 0x3E80, 0xFE41,
   0xFA01, 0x3AC0, 0x3B80, 0xFB41, 0x3900, 0xF9C1, 0xF881, 0x3840,
   0x2800, 0xE8C1, 0xE981, 0x2940, 0xEB01, 0x2BC0, 0x2A80, 0xEA41,
   0xEE01, 0x2EC0, 0x2F80, 0xEF41, 0x2D00, 0xEDC1, 0xEC81, 0x2C40,
   0xE401, 0x24C0, 0x2580, 0xE541, 0x2700, 0xE7C1, 0xE681, 0x2640,
   0x2200, 0xE2C1, 0xE381, 0x2340, 0xE101, 0x21C0, 0x2080, 0xE041,
   0xA001, 0x60C0, 0x6180, 0xA141, 0x6300, 0xA3C1, 0xA281, 0x6240,
   0x6600, 0xA6C1, 0xA781, 0x6740, 0xA501, 0x65C0, 0x6480, 0xA441,
   0x6C00, 0xACC1, 0xAD81, 0x6D40, 0xAF01, 0x6FC0, 0x6E80, 0xAE41,
   0xAA01, 0x6AC0, 0x6B80, 0xAB41, 0x6900, 0xA9C1, 0xA881, 0x6840,
   0x7800, 0xB8C1, 0xB981, 0x7940, 0xBB01, 0x7BC0, 0x7A80, 0xBA41,
   0xBE01, 0x7EC0, 0x7F80, 0xBF41, 0x7D00, 0xBDC1, 0xBC81, 0x7C40,
   0xB401, 0x74C0, 0x7580, 0xB541, 0x7700, 0xB7C1, 0xB681, 0x7640,
   0x7200, 0xB2C1, 0xB381, 0x7340, 0xB101, 0x71C0, 0x7080, 0xB041,
   0x5000, 0x90C1, 0x9181, 0x5140, 0x9301, 0x53C0, 0x5280, 0x9241,
   0x9601, 0x56C0, 0x5780, 0x9741, 0x5500, 0x95C1, 0x9481, 0x5440,
   0x9C01, 0x5CC0, 0x5D80, 0x9D41, 0x5F00, 0x9FC1, 0x9E81, 0x5E40,
   0x5A00, 0x9AC1, 0x9B81, 0x5B40, 0x9901, 0x59C0, 0x5880, 0x9841,
   0x8801, 0x48C0, 0x4980, 0x8941, 0x4B00, 0x8BC1, 0x8A81, 0x4A40,
   0x4E00, 0x8EC1, 0x8F81, 0x4F40, 0x8D01, 0x4DC0, 0x4C80, 0x8C41,
   0x4400, 0x84C1, 0x8581, 0x4540, 0x8701, 0x47C0, 0x4680, 0x8641,
   0x8201, 0x42C0, 0x4380, 0x8341, 0x4100, 0x81C1, 0x8081, 0x4040]

/-- mkfs `crc16_byte`: table-driven step, combining the data byte with the
low byte of the running crc (low-byte-first processing). -/
def crc16_byte (crc data : Nat) : Nat :=
  (crc >>> 8) ^^^ crc16_table.getD ((crc ^^^ data) % 256) 0

/-- mkfs `crc16` over a byte list. -/
def crc16 (crc : Nat) : List Nat → Nat
  | [] => crc
  | b :: rest => crc16 (crc16_byte crc b) rest

/-- One bit step of the reflected CRC-16 with polynomial 0xA001. -/
def crc16_poly_step (c : Nat) : Nat :=
  if c % 2 = 1 then (c / 2) ^^^ 0xA001 else c / 2

/-- The byte value the standard 0xA001-reflected table holds at index `b`:
eight bit steps applied to the byte. -/
def crc16_ref_byte (b : Nat) : Nat :=
  Nat.iterate crc16_poly_step 8 (b % 256)

/-- Modelled from the spec: the on-media device table of one superblock half
(struct zufs_dev_table is declared in zus_api.h, which is not among the
sources).  Only its decomposition into the bytes before `s_version`, the
static region `[offsetof(s_version), offsetof(s_sum))` and the `s_sum` field
is represented; the individual fields inside the static region are opaque
bytes here. -/
structure DevTable where
  headBytes : List Nat
  staticBytes : List Nat
  s_sum : Nat
deriving DecidableEq, Repr

/-- A toyfs on-media superblock page: two mirrored parts. -/
structure ToyfsSuperBlock where
  part1 : DevTable
  part2 : DevTable
deriving DecidableEq, Repr

/-- mkfs `toyfs_calc_csum`: CRC-16 with initial value 0xFFFF (`~0` truncated
to uint16) over the static region. -/
def toyfs_calc_csum (dt : DevTable) : Nat :=
  crc16 0xFFFF dt.staticBytes

/-- mkfs `toyfs_fill_dev_table`: fill the fields (their serialised bytes are
taken as inputs here) and close the table with the computed checksum. -/
def toyfs_fill_dev_table (headBytes staticBytes : List Nat) : DevTable :=
  let dt : DevTable := { headBytes := headBytes, staticBytes := staticBytes, s_sum := 0 }
  { dt with s_sum := toyfs_calc_csum dt }

/-- mkfs `toyfs_mirror_parts`: part2 becomes a byte-for-byte copy of
part1. -/
def toyfs_mirror_parts (sb : ToyfsSuperBlock) : ToyfsSuperBlock :=
  { sb with part2 := sb.part1 }

/-- The superblock page as written by a successful mkfs run (`main`: fill
part1, then mirror), starting from the zeroed global `g_super_block`. -/
def toyfs_mkfs_super_block (headBytes staticBytes : List Nat) : ToyfsSuperBlock :=
  let zeroDt : DevTable := { headBytes := [], staticBytes := [], s_sum := 0 }
  toyfs_mirror_parts
    { part1 := toyfs_fill_dev_table headBytes staticBytes, part2 := zeroDt }

/-- Modelled from the spec: the byte capacity of the inline `i_symlink` field
of `struct zus_inode` (zus_api.h is not among the sources; the spec says the
inline short-link form holds up to about 40 bytes).  The exact value does
not affect the claims, which compare against it abstractly. -/
def I_SYMLINK_INLINE : Nat := 32

/-- The payload `toyfs_new_inode` builds for the new inode. -/
inductive InodePayload where
  | dirP (ndentry offMax : Nat)
  | regP (firstParent : Nat)
  | lnkP (slLong : Option Nat)
  | fifoP (firstParent : Nat)
deriving DecidableEq, Repr

/-- The inode header fields `toyfs_new_inode` fills that the claims look
at. -/
structure NewInode where
  kind : IKind
  i_size : Nat
  payload : InodePayload
deriving DecidableEq, Repr

/-- toyfs.c `toyfs_new_inode`: unsupported modes are rejected with -ENOTSUP,
then any requested `i_size` of a page or more is rejected with -EINVAL, both
before any allocation; then an inode record is popped (-ENOSPC on
exhaustion) and the per-kind payload is set up.  A symlink whose target is
longer than the inline field gets exactly one freshly allocated page holding
the target bytes; if that page cannot be had the inode record is pushed back
and -ENOSPC returned.  Directories start with `i_size = PAGE_SIZE`,
`d_off_max = 2` and an empty child list.  (`zus_std_new_dir`, the itable
insert and the ino counter are outside the modelled claims.) -/
def toyfs_new_inode (sbi : Sbi) (kind : IKind) (isize : Nat) (parentIno : Nat)
    (target : Nat → Nat) : Sbi × Option NewInode × Int :=
  if kind = .other then (sbi, none, -ENOTSUP)
  else if isize ≥ PAGE_SIZE then (sbi, none, -EINVAL)
  else
    match _pool_pop_inode sbi with
    | (sbi1, false) => (sbi1, none, -ENOSPC)
    | (sbi1, true) =>
        match kind with
        | .dir =>
            (sbi1, some { kind := .dir, i_size := PAGE_SIZE,
                          payload := .dirP 0 2 }, 0)
        | .reg =>
            (sbi1, some { kind := .reg, i_size := isize,
                          payload := .regP parentIno }, 0)
        | .lnk =>
            if isize > I_SYMLINK_INLINE then
              match toyfs_alloc_page sbi1 with
              | (sbi2, none) => (_pool_push_inode sbi2, none, -ENOSPC)
              | (sbi2, some bn) =>
                  let sbi3 := { sbi2 with
                    pages := _copy_in sbi2.pages bn 0 isize target }
                  (sbi3, some { kind := .lnk, i_size := isize,
                                payload := .lnkP (some bn) }, 0)
            else
              (sbi1, some { kind := .lnk, i_size := isize,
                            payload := .lnkP none }, 0)
        | .fifo =>
            (sbi1, some { kind := .fifo, i_size := isize,
                          payload := .fifoP parentIno }, 0)
        | .other => (sbi1, none, -ENOTSUP)

/-! Concrete states used by the counterexamples and witnesses below. -/

/-- An empty regular file. -/
def emptyReg : RegInode := { i_size := 0, i_blocks := 0, blkrefs := [] }

/-- A freshly set-up pool with four raw pages and a few records on every
typed free list. -/
def sbi0 : Sbi :=
  { freePages := [10, 11, 12, 13], f_bfree := 4, f_bavail := 4, freeDbl := 4,
    freeIbl := 4, freeDirents := 2, freeInodes := 2, nextDbl := 0, dstore := [],
    pages := fun _ _ => 0 }

/-- Three empty regular files with inos 2, 3 and 4 over `sbi0`. -/
def fs0 : Fs :=
  { sbi := sbi0,
    inodes := [(2, { kind := .reg, reg := emptyReg }),
               (3, { kind := .reg, reg := emptyReg }),
               (4, { kind := .reg, reg := emptyReg })] }

/-- Sixteen bytes written to file 2: its single page is born with
refcount 1. -/
def fsC2a : Fs := (fsWrite fs0 2 (fun _ => 0xAA) 0 16).1

/-- File 2 entirely cloned onto file 3: the shared dblkref has
refcount 2. -/
def fsC2b : Fs := (toyfs_clone fsC2a 2 3 0 0 0).1

/-- One byte then written to file 2: the copy-on-write path of
`_require_iblkref` gives file 2 a private block but never decrements the
old shared dblkref. -/
def fsC2c : Fs := (fsWrite fsC2b 2 (fun _ => 0xBB) 0 1).1

/-- A page written to file 4. -/
def fsC3a : Fs := (fsWrite fs0 4 (fun _ => 0xCC) 0 4096).1

/-- File 4 entirely cloned onto file 3: file 3 holds a shared block at
offset 0. -/
def fsC3b : Fs := (toyfs_clone fsC3a 4 3 0 0 0).1

/-- A pool with exactly one raw page and one record on each blkref list:
the second page of a two-page write cannot be allocated. -/
def sbiC1 : Sbi :=
  { freePages := [2], f_bfree := 1, f_bavail := 1, freeDbl := 1, freeIbl := 1,
    freeDirents := 0, freeInodes := 0, nextDbl := 0, dstore := [],
    pages := fun _ _ => 0 }

/-- A directory holding one dirent "a" at offset 8192 (cookie counter
already at 3). -/
def dirC4 : DirInode :=
  { i_ino := 1, i_parent_ino := 1, i_size := 12290,
    d_childs := [{ d_off := 8192, d_ino := 4, d_type := 8, d_name := "a" }],
    d_ndentry := 1, d_off_max := 3 }

/-- An emit function with a capacity: accepts while the counter is positive,
rejects once it reaches zero (a full readdir buffer). -/
def emitCap : Nat → String → Nat → Nat → Nat → Nat × Bool :=
  fun s name pos ino dt => if s = 0 then (s, false) else (s - 1, true)

/-- An emit function that rejects every entry (a buffer with no room). -/
def emitNone : Nat → String → Nat → Nat → Nat → Nat × Bool :=
  fun s name pos ino dt => (s, false)

/-- A directory with a single dirent, cursor cookies start at 8192. -/
def dirW4 : DirInode :=
  { i_ino := 1, i_parent_ino := 1, i_size := 12290,
    d_childs := [{ d_off := 8192, d_ino := 9, d_type := 8, d_name := "w" }],
    d_ndentry := 1, d_off_max := 3 }

/-! Theorems for the claims, one per claim, with counterexamples and
witnesses where required. -/

/-- C2.  The spec invariant `D.refcount = number of iblkrefs pointing at D`
is violated on a state reachable by write and clone alone: after writing a
page to file 2, cloning file 2 entirely onto file 3 and writing one byte to
file 2 again, the copy-on-write branch of `_require_iblkref` has repointed
file 2 at a fresh private dblkref without decrementing the old shared one
(toyfs.c lines 1987-1992 have no decrement), leaving dblkref 0 with
refcount 2 while only file 3 points at it.  The code contradicts the
refcounting discipline its own `toyfs_assert(dblkref->refcnt > 0)` and
`_share_page`/`_unique_page` decrements embody, so this is a code bug, not a
spec error. -/
theorem C2_refcnt_invariant_violated :
    refcntInvariant fsC2c = false ∧
    dstoreGet fsC2c.sbi.dstore 0 = { bn := 10, refcnt := 2 } ∧
    iblkrefCountTo fsC2c 0 = 1 := by
  refine ⟨by decide, by decide, by decide⟩

/-- C3.  Cloning a hole over a shared destination block does not give the
destination a fresh private page: `_unique_page` takes a bare record from
`_consume_dblkref`, which initialises it with `bn = 0` and `refcnt = 0` and
allocates no page (contrast `_new_dblkref`, used by the write path, which
allocates a page and sets refcount 1).  Concretely: file 4 holds one page,
cloned entirely onto file 3 (shared, refcount 2); a sub-range clone of the
empty file 2 onto file 3 over that page then leaves file 3 pointing at a
dblkref with refcount 0 and block number 0 — the page that gets zeroed is
block 0 of the pmem (the superblock page), and no page is taken from the
free list.  A later truncate of file 3 would trip
`toyfs_assert(dblkref->refcnt > 0)` in `_decref_dblkref`, so the code
contradicts its own assertion: code bug. -/
theorem C3_clone_hole_unshare_broken :
    (toyfs_clone fsC3b 2 3 0 0 4096).2 = 0 ∧
    fsGetInode (toyfs_clone fsC3b 2 3 0 0 4096).1 3 =
      some { kind := .reg,
             reg := { i_size := 4096, i_blocks := 1,
                      blkrefs := [{ off := 0, dbl := 1 }] } } ∧
    dstoreGet (toyfs_clone fsC3b 2 3 0 0 4096).1.sbi.dstore 1 =
      { bn := 0, refcnt := 0 } ∧
    (toyfs_clone fsC3b 2 3 0 0 4096).1.sbi.freePages = fsC3b.sbi.freePages := by
  refine ⟨by decide, by decide, by decide, by decide⟩

/-- C1, counterexample.  A two-page write to an empty file over a pool with
a single page: the first page is allocated and written (the walk count
reaches 4096 bytes), the second allocation fails, and `toyfs_write` returns
-ENOSPC with `i_size` still 0 — not `max(old i_size, offset + bytes
written) = 4096` as the claim states, because the source returns from
inside the loop before the `i_size` update. -/
theorem C1_counterexample :
    (toyfs_write sbiC1 emptyReg (fun _ => 0xAA) 0 8192).2.2 = -ENOSPC ∧
    ((toyfs_write sbiC1 emptyReg (fun _ => 0xAA) 0 8192).2.1).i_size = 0 ∧
    (_write_walk 8192 sbiC1 emptyReg (fun _ => 0xAA) 0 0 8192 0 none).2.2.1 = 4096 ∧
    ((toyfs_write sbiC1 emptyReg (fun _ => 0xAA) 0 8192).2.1).blkrefs =
      [{ off := 0, dbl := 0 }] ∧
    ((toyfs_write sbiC1 emptyReg (fun _ => 0xAA) 0 8192).2.1).i_size ≠
      _max_offset 0 (_write_walk 8192 sbiC1 emptyReg (fun _ => 0xAA) 0 0 8192 0 none).2.2.1
        emptyReg.i_size := by
  refine ⟨by decide, by decide, by decide, by decide, by decide⟩

/-- C4, counterexample.  With the rejected entry the last dirent in the
list, iteration reports `more = false` (the loop has already advanced `itr`
past the end) and the cursor is advanced to `d_off + 1` even though the
emit was rejected, so a follow-up call from the returned cursor emits
nothing — the rejected entry is lost, not re-emitted.  (Emitter with
capacity 2: ".", ".." accepted, "a" rejected.) -/
theorem C4_counterexample :
    toyfs_iterate_dir emitCap dirC4 2 0 = (0, 8193, false) ∧
    (toyfs_iterate_dir emitCap dirC4 2 0).2.2 ≠ true ∧
    toyfs_iterate_dir emitCap dirC4 5 8193 = (5, 8193, false) := by
  refine ⟨by decide, by decide, by decide⟩

/-- C9, counterexample.  The mode check of `toyfs_new_inode` precedes the
size check, so a request of an unsupported kind with `i_size` of a page or
more returns -ENOTSUP, not -EINVAL as the unqualified claim states. -/
theorem C9_counterexample :
    toyfs_new_inode sbi0 .other 4096 1 (fun _ => 0) = (sbi0, none, -ENOTSUP) ∧
    (-ENOTSUP : Int) ≠ -EINVAL := by
  exact ⟨rfl, by decide⟩

/-- The compound alignment test of `toyfs_clone` holds exactly when both
offsets and the length are page aligned. -/
theorem ispagealigned_all (a b c : Nat) :
    (_ispagealigned a 0 && _ispagealigned a c &&
     _ispagealigned b 0 && _ispagealigned b c) = true ↔
    (a % PAGE_SIZE = 0 ∧ b % PAGE_SIZE = 0 ∧ c % PAGE_SIZE = 0) := by
  simp only [_ispagealigned, PAGE_SIZE, Bool.and_eq_true, beq_iff_eq]
  omega

set_option maxRecDepth 8000 in
/-- C5.  The mkfs checksum contract: the verbatim lookup table of the source
is exactly the standard reflected CRC-16 table for polynomial 0xA001 (entry
by entry, eight low-bit-first polynomial steps per byte), and for every
successful mkfs run the written superblock page has, in each mirrored half,
`s_sum` equal to the CRC-16 (initial value 0xFFFF, low byte first) of the
static region from `s_version` up to but not including `s_sum`, with part2 a
byte-for-byte copy of part1. -/
theorem C5_mkfs_checksum_mirror :
    crc16_table = (List.range 256).map crc16_ref_byte ∧
    ∀ headBytes staticBytes : List Nat,
      ((toyfs_mkfs_super_block headBytes staticBytes).part1.s_sum =
        crc16 0xFFFF (toyfs_mkfs_super_block headBytes staticBytes).part1.staticBytes) ∧
      ((toyfs_mkfs_super_block headBytes staticBytes).part2 =
        (toyfs_mkfs_super_block headBytes staticBytes).part1) := by
  refine ⟨by decide, fun hb st => ⟨rfl, rfl⟩⟩

/-- C7.  The dispatch of `toyfs_clone`: (a) a non-regular source or
destination is rejected with -ENOTSUP; (b) cloning an inode onto itself is a
successful no-op; (c) all-zero offsets and length select the entire-file
clone; (d) otherwise any misalignment of either offset or of the length is
rejected with -ENOTSUP (the compound `_ispagealigned` test of the source is
equivalent to all three being page aligned, by `ispagealigned_all`). -/
theorem C7_clone_dispatch (fs : Fs) (s d pi po l : Nat) (src dst : Inode)
    (hs : fsGetInode fs s = some src) (hd : fsGetInode fs d = some dst) :
    (¬ (src.kind = .reg ∧ dst.kind = .reg) →
        toyfs_clone fs s d pi po l = (fs, -ENOTSUP)) ∧
    (src.kind = .reg → dst.kind = .reg → s = d →
        toyfs_clone fs s d pi po l = (fs, 0)) ∧
    (src.kind = .reg → dst.kind = .reg → s ≠ d → pi = 0 → l = 0 → po = 0 →
        toyfs_clone fs s d pi po l =
          (match _clone_entire_file_range fs.sbi src.reg dst.reg with
           | (sbi1, dstReg1, e) =>
               (fsSetInode { fs with sbi := sbi1 } d { dst with reg := dstReg1 }, e))) ∧
    (src.kind = .reg → dst.kind = .reg → s ≠ d → ¬ (pi = 0 ∧ l = 0 ∧ po = 0) →
        ¬ (pi % PAGE_SIZE = 0 ∧ po % PAGE_SIZE = 0 ∧ l % PAGE_SIZE = 0) →
        toyfs_clone fs s d pi po l = (fs, -ENOTSUP)) := by
  unfold toyfs_clone
  rw [hs, hd]
  refine ⟨?_, ?_, ?_, ?_⟩
  · intro h
    simp [h]
  · intro h1 h2 h3
    simp [h1, h2, h3]
  · intro h1 h2 h3 h4 h5 h6
    simp [h1, h2, h3, h4, h5, h6]
  · intro h1 h2 h3 h4 h5
    have halign : (_ispagealigned pi 0 && _ispagealigned pi l &&
        _ispagealigned po 0 && _ispagealigned po l) = false :=
      Bool.eq_false_iff.mpr (fun ht => h5 ((ispagealigned_all pi po l).mp ht))
    simp [h1, h2, h3, h4, halign]

/-- A successful `toyfs_alloc_page` drops the free-block counter by exactly
one. -/
theorem alloc_page_some_bfree (sbi sbi1 : Sbi) (bn : Nat)
    (h : toyfs_alloc_page sbi = (sbi1, some bn)) :
    sbi1.f_bfree + 1 = sbi.f_bfree := by
  unfold toyfs_alloc_page at h
  split at h
  · simp at h
  · rename_i hgate
    split at h
    · simp at h
    · rename_i bn0 rest heq
      obtain ⟨h1, h2⟩ := Prod.mk.injEq .. ▸ h
      subst h1
      simp only
      omega

/-- Popping an inode record never touches the statvfs block counters. -/
theorem pop_inode_bfree (sbi : Sbi) :
    ((_pool_pop_inode sbi).1).f_bfree = sbi.f_bfree := by
  unfold _pool_pop_inode
  split
  · rfl
  · split <;> rfl

/-- C9, amended.  For every request of a supported kind (dir, regular,
symlink, fifo) whose requested initial `i_size` is at least PAGE_SIZE,
`toyfs_new_inode` returns -EINVAL with the state untouched — before any
inode record or page allocation.  Moreover a successful creation of a
symlink whose target is longer than the inline field implies the target was
strictly shorter than a page, the link is stored in exactly one owned page,
and exactly one data page was taken from the pool (the free-block counter
drops by exactly one; popping the inode record never touches it). -/
theorem C9_new_inode_size_guard (sbi : Sbi) (kind : IKind) (isize parent : Nat)
    (target : Nat → Nat) :
    (kind ≠ .other → isize ≥ PAGE_SIZE →
        toyfs_new_inode sbi kind isize parent target = (sbi, none, -EINVAL)) ∧
    (∀ sbi1 ni, kind = .lnk → I_SYMLINK_INLINE < isize →
        toyfs_new_inode sbi kind isize parent target = (sbi1, some ni, 0) →
        isize < PAGE_SIZE ∧ (∃ bn, ni.payload = .lnkP (some bn)) ∧
        sbi1.f_bfree + 1 = sbi.f_bfree) := by
  constructor
  · intro hk hsz
    unfold toyfs_new_inode
    simp [hk, hsz]
  · intro sbi1 ni hk hlong h
    subst hk
    unfold toyfs_new_inode at h
    simp only [reduceCtorEq, if_false] at h
    by_cases hsz : isize ≥ PAGE_SIZE
    · simp [hsz] at h
    · rw [if_neg hsz] at h
      refine ⟨by omega, ?_⟩
      rcases hp : _pool_pop_inode sbi with ⟨sbi2, ok⟩
      rw [hp] at h
      have hb2 : sbi2.f_bfree = sbi.f_bfree := by
        have := pop_inode_bfree sbi
        rw [hp] at this
        exact this
      cases ok with
      | false => simp at h
      | true =>
          simp only [if_pos hlong] at h
          rcases ha : toyfs_alloc_page sbi2 with ⟨sbi3, obn⟩
          rw [ha] at h
          cases obn with
          | none => simp at h
          | some bn =>
              simp only at h
              injection h with h1 h23
              injection h23 with h2 h3
              have hni := Option.some.inj h2
              have hb3 := alloc_page_some_bfree sbi2 sbi3 bn ha
              refine ⟨⟨bn, ?_⟩, ?_⟩
              · rw [← hni]
              · rw [← h1]
                simp only
                omega

theorem set_dbl_off_map (l : List Iblkref) (boff k : Nat) :
    (_set_dbl l boff k).map (fun ib => ib.off) = l.map (fun ib => ib.off) := by
  induction l with
  | nil => rfl
  | cons ib rest ih =>
      unfold _set_dbl
      split
      · simp
      · simpa using ih

theorem insert_iblkref_mem (l : List Iblkref) (nib : Iblkref) (o : Nat)
    (h : o ∈ l.map (fun ib => ib.off)) :
    o ∈ (_insert_iblkref l nib).map (fun ib => ib.off) := by
  induction l with
  | nil => simp at h
  | cons ib rest ih =>
      unfold _insert_iblkref
      split
      · simp at h ⊢
        tauto
      · simp at h ⊢
        rcases h with h | h
        · exact Or.inl h
        · exact Or.inr (by simpa using ih (by simpa using h))

theorem new_iblkref_isize (sbi : Sbi) (reg : RegInode) (off : Nat) :
    ((_new_iblkref sbi reg off).2.1).i_size = reg.i_size := by
  unfold _new_iblkref
  rcases hn : _new_dblkref sbi with ⟨sbi1, k⟩
  cases k with
  | none => rfl
  | some k =>
      dsimp only
      rcases hc : _consume_iblkref sbi1 with ⟨sbi2, b⟩
      cases b <;> rfl

theorem new_iblkref_blkrefs (sbi : Sbi) (reg : RegInode) (off : Nat) :
    ((_new_iblkref sbi reg off).2.1).blkrefs = reg.blkrefs := by
  unfold _new_iblkref
  rcases hn : _new_dblkref sbi with ⟨sbi1, k⟩
  cases k with
  | none => rfl
  | some k =>
      dsimp only
      rcases hc : _consume_iblkref sbi1 with ⟨sbi2, b⟩
      cases b <;> rfl

theorem require_iblkref_isize (sbi : Sbi) (reg : RegInode) (off : Nat) :
    ((_require_iblkref sbi reg off).2.1).i_size = reg.i_size := by
  unfold _require_iblkref
  dsimp only
  cases hf : _find_iblkref reg.blkrefs (_off_to_boff off) with
  | some ib =>
      simp only
      by_cases hrc : (dstoreGet sbi.dstore ib.dbl).refcnt > 1
      · rw [if_pos hrc]
        rcases hn : _new_dblkref sbi with ⟨sbi1, k⟩
        cases k <;> rfl
      · rw [if_neg hrc]
  | none =>
      simp only
      rcases hn : _new_iblkref sbi reg (_off_to_boff off) with ⟨sbi1, reg1, oib⟩
      have h1 : reg1.i_size = reg.i_size := by
        have := new_iblkref_isize sbi reg (_off_to_boff off)
        rw [hn] at this
        exact this
      cases oib with
      | none => exact h1
      | some ib => exact h1

theorem require_iblkref_mem (sbi : Sbi) (reg : RegInode) (off o : Nat)
    (h : o ∈ reg.blkrefs.map (fun ib => ib.off)) :
    o ∈ ((_require_iblkref sbi reg off).2.1).blkrefs.map (fun ib => ib.off) := by
  unfold _require_iblkref
  dsimp only
  cases hf : _find_iblkref reg.blkrefs (_off_to_boff off) with
  | some ib =>
      simp only
      by_cases hrc : (dstoreGet sbi.dstore ib.dbl).refcnt > 1
      · rw [if_pos hrc]
        rcases hn : _new_dblkref sbi with ⟨sbi1, k⟩
        cases k with
        | none => exact h
        | some k => simpa [set_dbl_off_map] using h
      · rw [if_neg hrc]
        exact h
  | none =>
      simp only
      rcases hn : _new_iblkref sbi reg (_off_to_boff off) with ⟨sbi1, reg1, oib⟩
      have h1 : reg1.blkrefs = reg.blkrefs := by
        have := new_iblkref_blkrefs sbi reg (_off_to_boff off)
        rw [hn] at this
        exact this
      cases oib with
      | none => exact h1 ▸ h
      | some ib =>
          simp only
          exact insert_iblkref_mem _ _ _ (h1 ▸ h)

theorem write_walk_isize (fuel : Nat) :
    ∀ (sbi : Sbi) (reg : RegInode) (buf : Nat → Nat) (bufpos off endOff cnt : Nat)
      (lastBn : Option Nat),
      ((_write_walk fuel sbi reg buf bufpos off endOff cnt lastBn).2.1).i_size =
        reg.i_size := by
  induction fuel with
  | zero => intros; rfl
  | succ n ih =>
      intro sbi reg buf bufpos off endOff cnt lastBn
      unfold _write_walk
      split
      · rcases hr : _require_iblkref sbi reg off with ⟨sbi1, reg1, oib⟩
        have hI : reg1.i_size = reg.i_size := by
          have := require_iblkref_isize sbi reg off
          rw [hr] at this
          exact this
        cases oib with
        | none => exact hI
        | some ib =>
            dsimp only
            rw [ih]
            exact hI
      · rfl

theorem write_walk_mem (fuel : Nat) :
    ∀ (sbi : Sbi) (reg : RegInode) (buf : Nat → Nat) (bufpos off endOff cnt : Nat)
      (lastBn : Option Nat) (o : Nat),
      o ∈ reg.blkrefs.map (fun ib => ib.off) →
      o ∈ ((_write_walk fuel sbi reg buf bufpos off endOff cnt lastBn).2.1).blkrefs.map
            (fun ib => ib.off) := by
  induction fuel with
  | zero => intro _ _ _ _ _ _ _ _ _ h; exact h
  | succ n ih =>
      intro sbi reg buf bufpos off endOff cnt lastBn o h
      unfold _write_walk
      split
      · rcases hr : _require_iblkref sbi reg off with ⟨sbi1, reg1, oib⟩
        have hM : o ∈ reg1.blkrefs.map (fun ib => ib.off) := by
          have := require_iblkref_mem sbi reg off o h
          rw [hr] at this
          exact this
        cases oib with
        | none => exact hM
        | some ib =>
            dsimp only
            exact ih _ _ _ _ _ _ _ _ _ hM
      · exact h

theorem write_walk_keeps_some (fuel : Nat) :
    ∀ (sbi : Sbi) (reg : RegInode) (buf : Nat → Nat) (bufpos off endOff cnt b : Nat),
      ((_write_walk fuel sbi reg buf bufpos off endOff cnt (some b)).2.2.2.1).isSome = true := by
  induction fuel with
  | zero => intros; rfl
  | succ n ih =>
      intro sbi reg buf bufpos off endOff cnt b
      unfold _write_walk
      split
      · rcases hr : _require_iblkref sbi reg off with ⟨sbi1, reg1, oib⟩
        cases oib with
        | none => rfl
        | some ib =>
            dsimp only
            exact ih _ _ _ _ _ _ _ _
      · rfl

theorem write_walk_first_some (fuel : Nat) (sbi : Sbi) (reg : RegInode)
    (buf : Nat → Nat) (bufpos off endOff cnt : Nat) (hoff : off < endOff)
    (hok : (_write_walk (fuel + 1) sbi reg buf bufpos off endOff cnt none).2.2.2.2 = true) :
    ((_write_walk (fuel + 1) sbi reg buf bufpos off endOff cnt none).2.2.2.1).isSome = true := by
  unfold _write_walk at hok ⊢
  rw [if_pos hoff] at hok ⊢
  generalize hgen : _require_iblkref sbi reg off = r at hok ⊢
  rcases r with ⟨sbi1, reg1, _ | ib⟩
  · simp at hok
  · dsimp only at hok ⊢
    exact write_walk_keeps_some fuel _ _ _ _ _ _ _ _

/-- C1, amended.  When a write fails mid-walk with an allocation failure,
`toyfs_write` returns -ENOSPC with `i_size` unchanged (the source returns
from inside the loop, before the size update), and the already-written
prefix of pages is retained: no block-map entry present before the write is
dropped (offsets of existing entries survive; the walk only adds entries
for the pages it completed). -/
theorem C1_write_enospc_leaves_isize (sbi : Sbi) (reg : RegInode) (buf : Nat → Nat)
    (off len : Nat) (sbi1 : Sbi) (reg1 : RegInode)
    (h : toyfs_write sbi reg buf off len = (sbi1, reg1, -ENOSPC)) :
    reg1.i_size = reg.i_size ∧
    ∀ o, o ∈ reg.blkrefs.map (fun ib => ib.off) →
      o ∈ reg1.blkrefs.map (fun ib => ib.off) := by
  unfold toyfs_write at h
  dsimp only at h
  by_cases hc : _check_rw off len ≠ 0
  · rw [if_pos hc] at h
    injection h with h1 h23
    injection h23 with h2 h3
    subst h2
    exact ⟨rfl, fun o ho => ho⟩
  · rw [if_neg hc] at h
    push_neg at hc
    have hlen : len ≠ 0 := by
      intro h0
      subst h0
      have hne : ¬((-EINVAL : Int) = 0) := by decide
      exact hne hc
    obtain ⟨m, rfl⟩ : ∃ m, len = m + 1 := ⟨len - 1, by omega⟩
    rcases hw : _write_walk (m + 1) sbi reg buf 0 off (off + (m + 1)) 0 none with
      ⟨sbiW, regW, cnt, lastBn, ok⟩
    rw [hw] at h
    have hregW : regW.i_size = reg.i_size := by
      have := write_walk_isize (m + 1) sbi reg buf 0 off (off + (m + 1)) 0 none
      rw [hw] at this
      exact this
    have hmemW : ∀ o, o ∈ reg.blkrefs.map (fun ib => ib.off) →
        o ∈ regW.blkrefs.map (fun ib => ib.off) := by
      intro o ho
      have := write_walk_mem (m + 1) sbi reg buf 0 off (off + (m + 1)) 0 none o ho
      rw [hw] at this
      exact this
    cases ok with
    | false =>
        dsimp only at h
        injection h with h1 h23
        injection h23 with h2 h3
        subst h2
        exact ⟨hregW, hmemW⟩
    | true =>
        dsimp only at h
        have hsome : lastBn.isSome = true := by
          have := write_walk_first_some m sbi reg buf 0 off (off + (m + 1)) 0
            (by omega)
            (by rw [hw])
          rw [hw] at this
          exact this
        rw [if_pos hsome] at h
        injection h with h1 h23
        injection h23 with h2 h3
        exact absurd h3.symm (by decide)

/-- C1 witness: the two-page write over the one-page pool fails with
-ENOSPC and leaves `i_size` at its old value. -/
theorem C1_write_enospc_leaves_isize_witness :
    ((toyfs_write sbiC1 emptyReg (fun _ => 0xAA) 0 8192).2.1).i_size = emptyReg.i_size ∧
    (0 : Nat) ∈ ((toyfs_write sbiC1 emptyReg (fun _ => 0xAA) 0 8192).2.1).blkrefs.map
      (fun ib => ib.off) :=
  have h := C1_write_enospc_leaves_isize sbiC1 emptyReg (fun _ => 0xAA) 0 8192
    (toyfs_write sbiC1 emptyReg (fun _ => 0xAA) 0 8192).1
    (toyfs_write sbiC1 emptyReg (fun _ => 0xAA) 0 8192).2.1 rfl
  ⟨h.1, by decide⟩

/-- A found offset of the `_seek_block` scan is at or past the start of the
scan. -/
theorem seek_walk_ge (fuel : Nat) :
    ∀ (reg : RegInode) (off endOff : Nat) (b : Bool) (r : Nat),
      _seek_block_walk fuel reg off endOff b = some r → off ≤ r := by
  induction fuel with
  | zero =>
      intro reg off endOff b r h
      exact absurd h (by simp [_seek_block_walk])
  | succ n ih =>
      intro reg off endOff b r h
      unfold _seek_block_walk at h
      by_cases h1 : off < endOff
      · rw [if_pos h1] at h
        by_cases h2 : (_fetch_iblkref reg off).isSome = b
        · rw [if_pos h2] at h
          injection h with h
          omega
        · rw [if_neg h2] at h
          have := ih reg (_next_page off) endOff b r h
          have h3 := next_page_gt off
          omega
      · rw [if_neg h1] at h
        exact absurd h (by simp)

/-- For an offset inside the file, the `_seek_block` scan returns the start
offset itself exactly when the page there matches the sought presence. -/
theorem seek_block_at (reg : RegInode) (o : Nat) (b : Bool) (h : o < reg.i_size) :
    (_seek_block reg o b = some o ↔ (_fetch_iblkref reg o).isSome = b) := by
  unfold _seek_block
  obtain ⟨k, hk⟩ : ∃ k, reg.i_size - o = k + 1 := ⟨reg.i_size - o - 1, by omega⟩
  rw [hk]
  unfold _seek_block_walk
  rw [if_pos h]
  by_cases hf : (_fetch_iblkref reg o).isSome = b
  · rw [if_pos hf]
    simp [hf]
  · rw [if_neg hf]
    constructor
    · intro hsome
      have hge := seek_walk_ge k reg (_next_page o) reg.i_size b o hsome
      have := next_page_gt o
      omega
    · intro hb
      exact absurd hb hf

/-- The offset output of `toyfs_seek` with SEEK_DATA equals the (non
negative) input exactly when the data scan found it there. -/
theorem seek_out_data (reg : RegInode) (o : Nat) :
    ((toyfs_seek reg o .seekData).2 = (o : Int)) ↔ _seek_data reg o = some o := by
  unfold toyfs_seek
  cases hs : _seek_data reg o with
  | none =>
      simp only
      constructor
      · intro hx
        exfalso
        omega
      · intro hx
        exact absurd hx (by simp)
  | some r =>
      simp only
      constructor
      · intro hx
        have : r = o := by exact_mod_cast hx
        rw [this]
      · intro hx
        injection hx with hx
        rw [hx]

/-- The offset output of `toyfs_seek` with SEEK_HOLE equals the input
exactly when the hole scan found it there. -/
theorem seek_out_hole (reg : RegInode) (o : Nat) :
    ((toyfs_seek reg o .seekHole).2 = (o : Int)) ↔ _seek_hole reg o = some o := by
  unfold toyfs_seek
  cases hs : _seek_hole reg o with
  | none =>
      simp only
      constructor
      · intro hx
        exfalso
        omega
      · intro hx
        exact absurd hx (by simp)
  | some r =>
      simp only
      constructor
      · intro hx
        have : r = o := by exact_mod_cast hx
        rw [this]
      · intro hx
        injection hx with hx
        rw [hx]

/-- C8.  Seek complementarity at page granularity: for every regular inode
and offset inside `[0, i_size)`, SEEK_DATA returns the offset itself exactly
when the page containing it has a backing block, SEEK_HOLE returns it
exactly when it does not, and hence exactly one of the two seeks returns the
offset itself. -/
theorem C8_seek_complementarity (reg : RegInode) (o : Nat) (h : o < reg.i_size) :
    ((toyfs_seek reg o .seekData).2 = (o : Int) ↔
      (_fetch_iblkref reg o).isSome = true) ∧
    ((toyfs_seek reg o .seekHole).2 = (o : Int) ↔
      (_fetch_iblkref reg o).isSome = false) ∧
    ((toyfs_seek reg o .seekData).2 = (o : Int) ↔
      ¬ ((toyfs_seek reg o .seekHole).2 = (o : Int))) := by
  have hd : (toyfs_seek reg o .seekData).2 = (o : Int) ↔
      (_fetch_iblkref reg o).isSome = true := by
    rw [seek_out_data reg o]
    exact seek_block_at reg o true h
  have hh : (toyfs_seek reg o .seekHole).2 = (o : Int) ↔
      (_fetch_iblkref reg o).isSome = false := by
    rw [seek_out_hole reg o]
    exact seek_block_at reg o false h
  refine ⟨hd, hh, ?_⟩
  rw [hd, hh]
  cases hx : (_fetch_iblkref reg o).isSome <;> simp

/-- A one-page file used by the seek witness. -/
def regW8 : RegInode :=
  { i_size := 8192, i_blocks := 1, blkrefs := [{ off := 0, dbl := 0 }] }

/-- C8 witness: on a file with a block at page 0 and a hole at page 1,
offset 0 is a SEEK_DATA fixed point and not a SEEK_HOLE one. -/
theorem C8_seek_complementarity_witness :
    ((toyfs_seek regW8 0 .seekData).2 = ((0 : Nat) : Int) ↔
      (_fetch_iblkref regW8 0).isSome = true) ∧
    ((toyfs_seek regW8 0 .seekHole).2 = ((0 : Nat) : Int) ↔
      (_fetch_iblkref regW8 0).isSome = false) ∧
    ((toyfs_seek regW8 0 .seekData).2 = ((0 : Nat) : Int) ↔
      ¬ ((toyfs_seek regW8 0 .seekHole).2 = ((0 : Nat) : Int))) :=
  C8_seek_complementarity regW8 0 (by decide)

/-- Once the `ok` local is false, the dirent loop exits at its entry check:
the emitter and cursor are untouched and `itr != childs` reports whether
entries remained. -/
theorem iterate_childs_notok {σ : Type} (emit : σ → String → Nat → Nat → Nat → σ × Bool)
    (s : σ) (pos : Nat) (l : List Dirent) :
    _iterate_childs emit s pos false l = (s, pos, false, decide (l ≠ [])) := by
  cases l <;> simp [_iterate_childs]

/-- Unfolding equation of the dirent loop at a cons cell with `ok` true. -/
theorem iterate_childs_cons_true {σ : Type}
    (emit : σ → String → Nat → Nat → Nat → σ × Bool) (s : σ) (pos : Nat)
    (d : Dirent) (t : List Dirent) :
    _iterate_childs emit s pos true (d :: t) =
      if pos ≤ d.d_off then
        (match emit s d.d_name d.d_off d.d_ino d.d_type with
         | (s1, e) => _iterate_childs emit s1 (d.d_off + 1) e t)
      else _iterate_childs emit s pos true t := rfl

/-- A dirent-loop run that stays accepted continues through appended
entries from the state and cursor it reached. -/
theorem iterate_childs_append_ok {σ : Type}
    (emit : σ → String → Nat → Nat → Nat → σ × Bool) :
    ∀ (l1 r : List Dirent) (s : σ) (pos : Nat) (s1 : σ) (p1 : Nat) (m : Bool),
      _iterate_childs emit s pos true l1 = (s1, p1, true, m) →
      _iterate_childs emit s pos true (l1 ++ r) = _iterate_childs emit s1 p1 true r := by
  intro l1
  induction l1 with
  | nil =>
      intro r s pos s1 p1 m h
      unfold _iterate_childs at h
      injection h with h1 h23
      injection h23 with h2 h34
      injection h34 with h3 h4
      subst h1
      subst h2
      rfl
  | cons d t ih =>
      intro r s pos s1 p1 m h
      rw [iterate_childs_cons_true] at h
      rw [List.cons_append, iterate_childs_cons_true]
      by_cases hle : pos ≤ d.d_off
      · rw [if_pos hle] at h ⊢
        rcases he : emit s d.d_name d.d_off d.d_ino d.d_type with ⟨s2, e⟩
        dsimp only at h ⊢
        rw [he] at h
        dsimp only at h
        cases e with
        | false =>
            rw [iterate_childs_notok] at h
            injection h with h1 h23
            injection h23 with h2 h34
            injection h34 with h3 h4
            exact absurd h3 (by simp)
        | true => exact ih r s2 (d.d_off + 1) s1 p1 m h
      · rw [if_neg hle] at h ⊢
        exact ih r s pos s1 p1 m h

/-- C4, amended.  For a readdir call with cursor at least 2 (past the dot
entries) whose emit function accepts an initial run of dirents and rejects
entry `d`: iteration stops at the rejection (the emitter is last applied to
`d`, never to a later entry), the returned cursor is `d_off + 1` — past the
rejected entry, which is therefore skipped, not re-emitted, on the next call
— and `more` is true exactly when dirents remained after the rejected one in
the list (false when the rejected entry was the last). -/
theorem C4_reject_stops_iteration {σ : Type}
    (emit : σ → String → Nat → Nat → Nat → σ × Bool) (dir : DirInode) (s0 : σ)
    (pos0 : Nat) (l1 l2 : List Dirent) (d : Dirent) (s1 : σ) (p1 : Nat)
    (m : Bool) (s2 : σ)
    (hpos : 2 ≤ pos0)
    (hchilds : dir.d_childs = l1 ++ d :: l2)
    (hwalk : _iterate_childs emit s0 pos0 true l1 = (s1, p1, true, m))
    (hle : p1 ≤ d.d_off)
    (hrej : emit s1 d.d_name d.d_off d.d_ino d.d_type = (s2, false)) :
    toyfs_iterate_dir emit dir s0 pos0 = (s2, d.d_off + 1, decide (l2 ≠ [])) := by
  unfold toyfs_iterate_dir _iterate_dir
  have h0 : ¬ pos0 = 0 := by omega
  rw [if_neg h0]
  dsimp only
  rw [if_neg (by simp; omega)]
  rw [hchilds]
  rw [iterate_childs_append_ok emit l1 (d :: l2) s0 pos0 s1 p1 m hwalk]
  rw [iterate_childs_cons_true]
  rw [if_pos hle, hrej]
  dsimp only
  rw [iterate_childs_notok]

/-- C4 witness: a rejecting emitter on a one-entry directory from cursor 2
stops at the entry with the cursor advanced past it and no more entries
reported. -/
theorem C4_reject_stops_iteration_witness :
    toyfs_iterate_dir emitNone dirW4 7 2 = (7, 8193, false) :=
  C4_reject_stops_iteration emitNone dirW4 7 2 [] []
    { d_off := 8192, d_ino := 9, d_type := 8, d_name := "w" } 7 2 false 7
    (by decide) rfl rfl (by decide) rfl

/-- C6.  Every successful `add_dentry` bumps `d_off_max` by one, assigns the
new dirent the offset `d_off_max × PAGE_SIZE` (the pre-bump counter value),
appends it at the tail of the child list, increments the child count, and
sets `i_size = d_off + PAGE_SIZE + 2`; when all existing dirent offsets are
below `d_off_max × PAGE_SIZE` (the counter invariant), the new offset is
strictly larger than every existing one — so offsets are unique and strictly
increasing across successive links — and the invariant still holds
afterwards. -/
theorem C6_add_dentry_spec (sbi : Sbi) (dir : DirInode) (cIno cTy : Nat)
    (name : String) (sbi1 : Sbi) (dir1 : DirInode)
    (h : _toyfs_add_dentry sbi dir cIno cTy name = (sbi1, dir1, 0)) :
    dir1.d_off_max = dir.d_off_max + 1 ∧
    dir1.d_childs = dir.d_childs ++
      [{ d_off := dir.d_off_max * PAGE_SIZE, d_ino := cIno, d_type := cTy,
         d_name := name }] ∧
    dir1.d_ndentry = dir.d_ndentry + 1 ∧
    dir1.i_size = dir.d_off_max * PAGE_SIZE + PAGE_SIZE + 2 ∧
    ((∀ e ∈ dir.d_childs, e.d_off < dir.d_off_max * PAGE_SIZE) →
      (∀ e ∈ dir.d_childs, e.d_off < dir.d_off_max * PAGE_SIZE) ∧
      (∀ e ∈ dir1.d_childs, e.d_off < dir1.d_off_max * PAGE_SIZE) ∧
      ((dir.d_childs.map (fun e => e.d_off)).Nodup →
        (dir1.d_childs.map (fun e => e.d_off)).Nodup)) := by
  unfold _toyfs_add_dentry at h
  generalize hg : toyfs_alloc_dirent sbi = a at h
  rcases a with ⟨sbi2, b⟩
  cases b with
  | false =>
      dsimp only at h
      injection h with h1 h23
      injection h23 with h2 h3
      exact absurd h3 (by decide)
  | true =>
      dsimp only [toyfs_next_doff] at h
      injection h with h1 h23
      injection h23 with h2 h3
      subst h2
      refine ⟨rfl, rfl, rfl, rfl, ?_⟩
      intro hb
      refine ⟨hb, ?_, ?_⟩
      · intro e he
        simp only [List.mem_append, List.mem_singleton] at he
        rcases he with he | he
        · have := hb e he
          simp only [PAGE_SIZE] at this ⊢
          omega
        · subst he
          simp only [PAGE_SIZE]
          omega
      · intro hnd
        have hne : ∀ x ∈ dir.d_childs.map (fun e => e.d_off),
            x ≠ dir.d_off_max * PAGE_SIZE := by
          intro x hx
          simp only [List.mem_map] at hx
          obtain ⟨e, he, rfl⟩ := hx
          exact Nat.ne_of_lt (hb e he)
        simp only [List.map_append, List.map_cons, List.map_nil]
        rw [List.nodup_append]
        refine ⟨hnd, List.nodup_singleton _, ?_⟩
        intro x hx hmem
        simp only [List.mem_singleton] at hmem
        exact hne x hx hmem

/-- An empty directory used by the add_dentry witness. -/
def dirW6 : DirInode :=
  { i_ino := 1, i_parent_ino := 1, i_size := 4096, d_childs := [],
    d_ndentry := 0, d_off_max := 2 }

/-- C6 witness: linking "a" into an empty directory bumps the counter to 3,
and sets the size to 8192 + 4096 + 2. -/
theorem C6_add_dentry_spec_witness :
    ((_toyfs_add_dentry sbi0 dirW6 5 8 "a").2.1).d_off_max = 3 ∧
    ((_toyfs_add_dentry sbi0 dirW6 5 8 "a").2.1).i_size = 12290 :=
  have h := C6_add_dentry_spec sbi0 dirW6 5 8 "a"
    (_toyfs_add_dentry sbi0 dirW6 5 8 "a").1
    (_toyfs_add_dentry sbi0 dirW6 5 8 "a").2.1 rfl
  ⟨h.1, h.2.2.2.1⟩

/-- C7 witness: with files 2 and 3 of `fs0`, a misaligned sub-range clone is
rejected with -ENOTSUP. -/
theorem C7_clone_dispatch_witness :
    toyfs_clone fs0 2 3 1 0 100 = (fs0, -ENOTSUP) := by
  have h := C7_clone_dispatch fs0 2 3 1 0 100
    { kind := .reg, reg := emptyReg } { kind := .reg, reg := emptyReg }
    (by decide) (by decide)
  exact h.2.2.2 (by decide) (by decide) (by decide) (by decide) (by decide)

/-- C9 witness: a symlink of length 100 (over the inline capacity, under a
page) is created with exactly one backing page; the free-block counter
drops by one. -/
theorem C9_new_inode_size_guard_witness :
    (100 : Nat) < PAGE_SIZE ∧
    (∃ bn, ((toyfs_new_inode sbi0 .lnk 100 1 (fun _ => 7)).2.1.get
      (by decide)).payload = .lnkP (some bn)) ∧
    ((toyfs_new_inode sbi0 .lnk 100 1 (fun _ => 7)).1).f_bfree + 1 = sbi0.f_bfree := by
  have h := (C9_new_inode_size_guard sbi0 .lnk 100 1 (fun _ => 7)).2
    (toyfs_new_inode sbi0 .lnk 100 1 (fun _ => 7)).1
    ((toyfs_new_inode sbi0 .lnk 100 1 (fun _ => 7)).2.1.get (by decide))
    rfl (by decide) rfl
  exact h

/-- Popping an iblkref record never touches the dblkref store. -/
theorem consume_iblkref_dstore (sbi : Sbi) :
    ((_consume_iblkref sbi).1).dstore = sbi.dstore := by
  unfold _consume_iblkref
  split
  · rfl
  · split <;> rfl

/-- `_drop_walk` at position 0 drops every entry. -/
theorem drop_walk_zero (l : List Iblkref) :
    ∀ (sbi : Sbi) (b : Nat), (_drop_walk sbi l 0 b).2.1 = [] := by
  induction l with
  | nil => intro sbi b; rfl
  | cons ib rest ih =>
      intro sbi b
      unfold _drop_walk
      rw [if_pos (Nat.zero_le _)]
      exact ih _ _

/-- `_drop_range` keeps `i_size`. -/
theorem drop_range_isize (sbi : Sbi) (reg : RegInode) (pos : Nat) :
    ((_drop_range sbi reg pos).2).i_size = reg.i_size := by
  unfold _drop_range
  generalize _drop_walk sbi reg.blkrefs
      (if pos % PAGE_SIZE ≠ 0 then _next_page pos else pos) reg.i_blocks = w
  rcases w with ⟨sbi1, l1, b1⟩
  rfl

/-- `_drop_range` at position 0 empties the block map. -/
theorem drop_range_zero_blkrefs (sbi : Sbi) (reg : RegInode) :
    ((_drop_range sbi reg 0).2).blkrefs = [] := by
  unfold _drop_range
  have hpos : (if (0 : Nat) % PAGE_SIZE ≠ 0 then _next_page 0 else 0) = 0 := by decide
  rw [hpos]
  dsimp only
  have := drop_walk_zero reg.blkrefs sbi reg.i_blocks
  generalize hg : _drop_walk sbi reg.blkrefs 0 reg.i_blocks = w at this ⊢
  rcases w with ⟨sbi1, l1, b1⟩
  exact this

/-- The share loop of the entire-file clone, stopped by an iblkref
exhaustion, leaves the destination with a proper prefix of the source
entries appended and the store equal to the original with one increment per
shared entry. -/
theorem clone_walk_enospc (src : List Iblkref) :
    ∀ (sbi : Sbi) (dst : RegInode) (sbi2 : Sbi) (dst2 : RegInode),
      _clone_entire_walk sbi src dst = (sbi2, dst2, -ENOSPC) →
      dst2.i_size = dst.i_size ∧
      ∃ k, k < src.length ∧ dst2.blkrefs = dst.blkrefs ++ src.take k ∧
        sbi2.dstore = ((src.take k).map (fun ib => ib.dbl)).foldl dstoreIncref sbi.dstore := by
  induction src with
  | nil =>
      intro sbi dst sbi2 dst2 h
      unfold _clone_entire_walk at h
      injection h with h1 h23
      injection h23 with h2 h3
      exact absurd h3 (by decide)
  | cons s rest ih =>
      intro sbi dst sbi2 dst2 h
      unfold _clone_entire_walk at h
      generalize hg : _consume_iblkref sbi = a at h
      rcases a with ⟨sbi1, b⟩
      have hds : sbi1.dstore = sbi.dstore := by
        have := consume_iblkref_dstore sbi
        rw [hg] at this
        exact this
      cases b with
      | false =>
          dsimp only at h
          injection h with h1 h23
          injection h23 with h2 h3
          subst h1
          subst h2
          exact ⟨rfl, 0, by simp, by simp, by simp [hds]⟩
      | true =>
          dsimp only at h
          obtain ⟨hI, k, hk, hblk, hds2⟩ := ih _ _ _ _ h
          refine ⟨hI, k + 1, by simpa using hk, ?_, ?_⟩
          · rw [hblk]
            simp [List.take_succ_cons]
          · rw [hds2, hds]
            simp [List.take_succ_cons]

/-- The keys of the store are unchanged by an increment. -/
theorem dstoreIncref_keys (store : List (Nat × Dblkref)) (k0 : Nat) :
    (dstoreIncref store k0).map Prod.fst = store.map Prod.fst := by
  unfold dstoreIncref
  induction store with
  | nil => rfl
  | cons p rest ih =>
      simp only [List.map_cons]
      rw [ih]
      split <;> rfl

/-- Reading a live key after an increment: its refcount grows by one when
the incremented key is the one read, else is unchanged. -/
theorem dstoreGet_incref_refcnt (store : List (Nat × Dblkref)) (k0 k : Nat)
    (hk : k ∈ store.map Prod.fst) :
    (dstoreGet (dstoreIncref store k0) k).refcnt =
      (dstoreGet store k).refcnt + (if k = k0 then 1 else 0) := by
  induction store with
  | nil => simp at hk
  | cons p rest ih =>
      by_cases hpk : p.1 = k
      · subst hpk
        by_cases hkk0 : p.1 = k0
        · subst hkk0
          simp [dstoreIncref, dstoreGet]
        · simp [dstoreIncref, dstoreGet, hkk0]
      · have hk2 : k ∈ rest.map Prod.fst := by
          simp only [List.map_cons, List.mem_cons] at hk
          rcases hk with hx | hx
          · exact absurd hx.symm hpk
          · exact hx
        have ihh := ih hk2
        by_cases hpk0 : p.1 = k0
        · subst hpk0
          have hbk : ((p.1 : Nat) == k) = false := by simpa using hpk
          simp only [dstoreIncref, dstoreGet, List.map_cons, List.find?_cons,
            beq_self_eq_true, if_true, hbk] at ihh ⊢
          exact ihh
        · have hbk : ((p.1 : Nat) == k) = false := by simpa using hpk
          have hbk0 : ((p.1 : Nat) == k0) = false := by simpa using hpk0
          simp only [dstoreIncref, dstoreGet, List.map_cons, List.find?_cons,
            hbk, hbk0, Bool.false_eq_true, if_false, ite_false] at ihh ⊢
          exact ihh

/-- Reading a live key after a sequence of increments adds the number of
occurrences of the key in the sequence. -/
theorem dstoreGet_foldl_incref (ks : List Nat) :
    ∀ (store : List (Nat × Dblkref)) (k : Nat), k ∈ store.map Prod.fst →
      (dstoreGet (ks.foldl dstoreIncref store) k).refcnt =
        (dstoreGet store k).refcnt + ks.count k := by
  induction ks with
  | nil =>
      intro store k hk
      simp
  | cons k0 t ih =>
      intro store k hk
      simp only [List.foldl_cons]
      have hkeys : k ∈ (dstoreIncref store k0).map Prod.fst := by
        rw [dstoreIncref_keys]
        exact hk
      rw [ih (dstoreIncref store k0) k hkeys]
      rw [dstoreGet_incref_refcnt store k0 k hk]
      have hcnt : (k0 :: t).count k = t.count k + (if k = k0 then 1 else 0) := by
        rw [List.count_cons]
        by_cases hx : k = k0
        · simp [hx]
        · simp [hx, Ne.symm hx]
      rw [hcnt]
      omega

/-- C10.  The entire-file clone is not atomic on failure: it first drops
every destination entry (releasing the destination blocks), then appends
shared entries one source entry at a time; when an iblkref allocation fails
mid-way it returns -ENOSPC leaving the destination holding exactly a proper
prefix of the source block map — each prefix entry pointing at the source
dblkref, whose refcount (relative to the post-drop store) has already been
bumped once per occurrence in the prefix — and with the destination
`i_size` not yet updated to the source size. -/
theorem C10_clone_entire_midway_failure (sbi : Sbi) (src dst : RegInode)
    (sbi2 : Sbi) (dst2 : RegInode)
    (h : _clone_entire_file_range sbi src dst = (sbi2, dst2, -ENOSPC)) :
    dst2.i_size = dst.i_size ∧
    ∃ k, k < src.blkrefs.length ∧ dst2.blkrefs = src.blkrefs.take k ∧
      ∀ ib ∈ src.blkrefs.take k,
        ib.dbl ∈ ((_drop_range sbi dst 0).1.dstore.map Prod.fst) →
        (dstoreGet sbi2.dstore ib.dbl).refcnt =
          (dstoreGet ((_drop_range sbi dst 0).1).dstore ib.dbl).refcnt +
          ((src.blkrefs.take k).map (fun x => x.dbl)).count ib.dbl := by
  unfold _clone_entire_file_range at h
  have hnil : ((_drop_range sbi dst 0).2).blkrefs = [] :=
    drop_range_zero_blkrefs sbi dst
  have hsz : ((_drop_range sbi dst 0).2).i_size = dst.i_size :=
    drop_range_isize sbi dst 0
  generalize hd : _drop_range sbi dst 0 = dr at h hnil hsz ⊢
  rcases dr with ⟨sbi1, dst1⟩
  dsimp only at h
  generalize hwg : _clone_entire_walk sbi1 src.blkrefs dst1 = w at h
  rcases w with ⟨sbiW, dstW, e⟩
  dsimp only at h
  by_cases he : e = 0
  · rw [if_pos he] at h
    injection h with h1 h23
    injection h23 with h2 h3
    exact absurd h3 (by decide)
  · rw [if_neg he] at h
    injection h with h1 h23
    injection h23 with h2 h3
    subst h1
    subst h2
    subst h3
    obtain ⟨hI, k, hk, hblk, hds⟩ :=
      clone_walk_enospc src.blkrefs sbi1 dst1 sbiW dstW hwg
    refine ⟨by rw [hI, hsz], k, hk, ?_, ?_⟩
    · rw [hblk, hnil]
      simp
    · intro ib hib hmem
      rw [hds]
      exact dstoreGet_foldl_incref ((src.blkrefs.take k).map (fun x => x.dbl))
        sbi1.dstore ib.dbl hmem

/-- An exhausted pool holding one live dblkref, for the clone-failure
witness. -/
def sbiW10 : Sbi :=
  { freePages := [], f_bfree := 0, f_bavail := 0, freeDbl := 0, freeIbl := 0,
    freeDirents := 0, freeInodes := 0, nextDbl := 6,
    dstore := [(5, { bn := 9, refcnt := 1 })], pages := fun _ _ => 0 }

/-- A one-block source file pointing at dblkref 5. -/
def srcW10 : RegInode :=
  { i_size := 4096, i_blocks := 1, blkrefs := [{ off := 0, dbl := 5 }] }

/-- C10 witness: with the iblkref slab exhausted, the entire-file clone
fails and leaves the destination size untouched. -/
theorem C10_clone_entire_midway_failure_witness :
    ((_clone_entire_file_range sbiW10 srcW10 emptyReg).2.1).i_size = emptyReg.i_size :=
  (C10_clone_entire_midway_failure sbiW10 srcW10 emptyReg
    (_clone_entire_file_range sbiW10 srcW10 emptyReg).1
    (_clone_entire_file_range sbiW10 srcW10 emptyReg).2.1 rfl).1
